import Mathlib

/-!
Shallow embedding of `pkg/serviceaccounts/controllers/create_dockercfg_secrets.go`,
the dockercfg-secret reconciliation controller, together with a small model of the
remote object store it talks to.  The store keeps service accounts and secrets,
enforces optimistic concurrency (resource-version compare) on service-account
updates, and is subject to external interference: a queue of pending external
events (the token materializer filling a token payload, or a concurrent writer
replacing a service account's secret lists) of which one is consumed before every
store round trip.
-/

namespace CreateDockercfgSecrets

/-- Store-client errors; mirrors the error kinds the controller distinguishes via
kapierrors.IsConflict and kapierrors.IsNotFound, plus generic errors built with
fmt.Errorf. -/
inductive Err where
  | conflict (resource : String) (name : String) (msg : String)
  | notFound (resource : String) (name : String)
  | alreadyExists (resource : String) (name : String)
  | other (msg : String)
deriving DecidableEq

/-- Mirrors kapierrors.IsConflict applied to the error of a fallible call
(`false` on a nil error, i.e. on success). -/
def isConflictE {α : Type} : Except Err α → Bool
  | .error (.conflict _ _ _) => true
  | _ => false

/-- Mirrors kapierrors.IsNotFound on a non-nil error. -/
def Err.isNotFound : Err → Bool
  | .notFound _ _ => true
  | _ => false

/-- The fields of api.ServiceAccount the controller reads or writes.  Secrets and
ImagePullSecrets are reference lists of which only the Name field is ever used,
so they are modelled as lists of names.  The opaque resource version token is
modelled as a natural number only compared for equality and bumped on write. -/
structure ServiceAccount where
  ns : String
  name : String
  uid : String
  resourceVersion : Nat
  secrets : List String
  imagePullSecrets : List String
deriving DecidableEq

/-- The fields of api.Secret the controller uses. Annotations and Data are string
maps, modelled as association lists. -/
structure Secret where
  ns : String
  name : String
  annotations : List (String × String)
  secretType : String
  data : List (String × String)
deriving DecidableEq

/-- Models api.ServiceAccountNameKey. -/
def serviceAccountNameKey : String := "kubernetes.io/service-account.name"

/-- Models api.ServiceAccountUIDKey. -/
def serviceAccountUIDKey : String := "kubernetes.io/service-account.uid"

/-- Models api.ServiceAccountTokenKey, the data key the external token
materializer fills in. -/
def serviceAccountTokenKey : String := "token"

/-- ServiceAccountTokenSecretNameKey from the source file. -/
def serviceAccountTokenSecretNameKey : String := "openshift.io/token-secret.name"

/-- Models api.DockerConfigKey, the data key of the dockercfg payload. -/
def dockerConfigKey : String := ".dockercfg"

/-- Models api.SecretTypeServiceAccountToken. -/
def secretTypeServiceAccountToken : String := "kubernetes.io/service-account-token"

/-- Models api.SecretTypeDockercfg. -/
def secretTypeDockercfg : String := "kubernetes.io/dockercfg"

/-- Association-list lookup with default; models reading a Go string map where a
missing key yields the zero value. -/
def lookupD (d : List (String × String)) (k dflt : String) : String :=
  match d.find? (fun p => p.1 == k) with
  | some p => p.2
  | none => dflt

/-- Association-list update; models assignment into a Go string map. -/
def upsert (k v : String) : List (String × String) → List (String × String)
  | [] => [(k, v)]
  | (k', v') :: rest => if k' == k then (k, v) :: rest else (k', v') :: upsert k v rest

/-- Models strings.HasPrefix. -/
def hasPfx (p s : String) : Bool := p.data.isPrefixOf s.data

/-- Lexicographic comparison of character lists by code point; agrees with the
byte-wise string order Go's sort.Strings uses (UTF-8 byte order coincides with
code-point order). -/
def strLtL : List Char → List Char → Bool
  | [], [] => false
  | [], _ :: _ => true
  | _ :: _, [] => false
  | a :: as, b :: bs =>
    if a.toNat < b.toNat then true
    else if b.toNat < a.toNat then false
    else strLtL as bs

/-- Lexicographic order on strings. -/
def strLt (a b : String) : Bool := strLtL a.data b.data

/-- Sorted, duplicate-free insertion; models k8s sets.String.Insert combined with
the fact that sets.String.List() returns the members in sorted order.  A
classification set is represented throughout as its sorted member list. -/
def sinsert (x : String) : List String → List String
  | [] => [x]
  | y :: ys =>
    if strLt x y then x :: y :: ys
    else if x = y then y :: ys
    else y :: sinsert x ys

/-- Collects into a set the entries of a reference-name list carrying the given
generated-secret name prefix; the loop bodies of getGeneratedDockercfgSecretNames. -/
def classify (pfx : String) (l : List String) : List String :=
  l.foldl (fun acc n => if hasPfx pfx n then sinsert n acc else acc) []

/-- Modelled from the spec: `GetDockercfgSecretNamePrefix` lives in
pkg/serviceaccounts/util, which is not part of the provided sources.  The spec
says generated bundle names carry a recognizable prefix derived deterministically
from the principal's identity, and its concrete scenario uses
`default-dockercfg-xyz` for principal `default`. -/
def getDockercfgSecretNamePrefix (serviceAccount : ServiceAccount) : String :=
  serviceAccount.name ++ "-dockercfg-"

/-- Modelled from the spec: `GetTokenSecretNamePrefix` lives in
pkg/serviceaccounts/util, which is not part of the provided sources.  The spec's
scenario uses `default-token-abc` for principal `default`. -/
def getTokenSecretNamePrefix (serviceAccount : ServiceAccount) : String :=
  serviceAccount.name ++ "-token-"

/-- getGeneratedDockercfgSecretNames from the source: the pair of classification
sets (mountable generated dockercfg secrets, image-pull generated dockercfg
secrets). -/
def getGeneratedDockercfgSecretNames (serviceAccount : ServiceAccount) :
    List String × List String :=
  let secretNamePfx := getDockercfgSecretNamePrefix serviceAccount
  (classify secretNamePfx serviceAccount.secrets,
   classify secretNamePfx serviceAccount.imagePullSecrets)

/-- External interference events applied by actors other than this controller:
`fill` is the external token materializer writing the token payload under the
token data key; `updSA` is a concurrent writer replacing a service account's two
secret lists (bumping its resource version, as any store write does); `skip` is
an idle step. -/
inductive ExtEvent where
  | fill (ns name val : String)
  | updSA (ns name : String) (secrets imagePullSecrets : List String)
  | skip
deriving DecidableEq

/-- An external event leaves every service account untouched. -/
def ExtEvent.isQuiet : ExtEvent → Bool
  | .updSA _ _ _ _ => false
  | _ => true

/-- The remote object store plus its environment: stored service accounts and
secrets, the queue of pending external events, the supply of random suffixes
consumed by GenerateName, and the process-wide error-sink trace fed by
utilruntime.HandleError. -/
structure Store where
  accounts : List ServiceAccount
  secrets : List Secret
  pending : List ExtEvent
  nameSeq : List String
  reported : List Err
deriving DecidableEq

/-- Applies one external event to the store contents. -/
def applyExt : ExtEvent → Store → Store
  | .skip, st => st
  | .fill ns n v, st =>
    { st with secrets := st.secrets.map fun s =>
        if s.ns == ns && s.name == n then
          { s with data := upsert serviceAccountTokenKey v s.data }
        else s }
  | .updSA ns n newSecrets newPull, st =>
    { st with accounts := st.accounts.map fun a =>
        if a.ns == ns && a.name == n then
          { a with secrets := newSecrets, imagePullSecrets := newPull,
                   resourceVersion := a.resourceVersion + 1 }
        else a }

/-- One unit of external progress, consumed before every store round trip. -/
def tick (st : Store) : Store :=
  match st.pending with
  | [] => st
  | e :: rest => applyExt e { st with pending := rest }

/-- Locates a stored service account by namespace and name. -/
def findSA (st : Store) (ns n : String) : Option ServiceAccount :=
  st.accounts.find? fun a => a.ns == ns && a.name == n

/-- Locates a stored secret by namespace and name. -/
def findSecret (st : Store) (ns n : String) : Option Secret :=
  st.secrets.find? fun s => s.ns == ns && s.name == n

/-- Client ServiceAccounts(ns).Get(name); one unit of external progress precedes
the read. -/
def getSA (ns n : String) (st : Store) : Except Err ServiceAccount × Store :=
  match findSA (tick st) ns n with
  | some a => (.ok a, tick st)
  | none => (.error (.notFound "serviceaccount" n), tick st)

/-- Client ServiceAccounts(ns).Update(sa): optimistic concurrency, rejecting with
a Conflict error when the held resource version no longer matches the stored one;
a successful write stores the object with a fresh resource version. -/
def updateSA (sa : ServiceAccount) (st : Store) : Except Err ServiceAccount × Store :=
  match findSA (tick st) sa.ns sa.name with
  | none => (.error (.notFound "serviceaccount" sa.name), tick st)
  | some cur =>
    if cur.resourceVersion ≠ sa.resourceVersion then
      (.error (.conflict "serviceaccount" sa.name "resource version mismatch"), tick st)
    else
      (.ok { sa with resourceVersion := sa.resourceVersion + 1 },
       { tick st with accounts := (tick st).accounts.map fun a =>
          if a.ns == sa.ns && a.name == sa.name then
            { sa with resourceVersion := sa.resourceVersion + 1 }
          else a })

/-- Client Secrets(ns).Create(secret). -/
def createSecret (sec : Secret) (st : Store) : Except Err Secret × Store :=
  match findSecret (tick st) sec.ns sec.name with
  | some _ => (.error (.alreadyExists "secret" sec.name), tick st)
  | none => (.ok sec, { tick st with secrets := sec :: (tick st).secrets })

/-- Client Secrets(ns).Get(name). -/
def getSecret (ns n : String) (st : Store) : Except Err Secret × Store :=
  match findSecret (tick st) ns n with
  | some s => (.ok s, tick st)
  | none => (.error (.notFound "secret" n), tick st)

/-- Client Secrets(ns).Delete(name). -/
def deleteSecret (ns n : String) (st : Store) : Except Err Unit × Store :=
  match findSecret (tick st) ns n with
  | none => (.error (.notFound "secret" n), tick st)
  | some _ =>
    (.ok (), { tick st with
      secrets := (tick st).secrets.filter fun s => !(s.ns == ns && s.name == n) })

/-- Models utilruntime.HandleError: the error goes to the process-wide sink. -/
def handleError (e : Err) (st : Store) : Store :=
  { st with reported := st.reported ++ [e] }

/-- The suffix the next GenerateName call will use. -/
def genSuffix (st : Store) : String := st.nameSeq.headD "a0000"

/-- Models secret.Strategy.GenerateName(prefixed base): draws the next random
suffix from the supply.  GenerateName itself is external k8s code. -/
def genName (st : Store) : String × Store :=
  (genSuffix st, { st with nameSeq := st.nameSeq.tail })

/-- The controller state the reconciliation path reads: the configured registry
endpoint (e.dockerURL, read under its mutex). -/
structure Ctl where
  dockerURL : String
deriving DecidableEq

/-- Constant tokenSecretWaitTimes from the source. -/
def tokenSecretWaitTimes : Nat := 100

/-- Constant tokenSecretWaitInterval from the source, in milliseconds. -/
def tokenSecretWaitInterval : ℚ := 20

/-- Modelled from the spec and the documented contract of the external k8s
wait.Jitter helper: a non-positive maxFactor selects a suggested default of 1.0. -/
def effectiveMaxFactor (maxFactor : ℚ) : ℚ :=
  if maxFactor ≤ 0 then 1 else maxFactor

/-- Modelled from the spec: the external wait.Jitter returns
duration + r * maxFactor * duration for a fresh random r in the unit interval,
after substituting the default factor for a non-positive maxFactor. -/
def waitJitter (duration maxFactor r : ℚ) : ℚ :=
  duration + r * effectiveMaxFactor maxFactor * duration

/-- The sleep performed between poll attempts at the call site
time.Sleep(wait.Jitter(tokenSecretWaitInterval, 0.0)), as a function of the
random draw.  Sleeping does not change the store, so the poll loop below tracks
no time; this definition captures the slept duration. -/
def pollSleep (r : ℚ) : ℚ := waitJitter tokenSecretWaitInterval 0 r

/-- The placeholder token secret built at the top of createTokenSecret, given the
suffix GenerateName drew. -/
def mkTokenSecret (serviceAccount : ServiceAccount) (sfx : String) : Secret :=
  { ns := serviceAccount.ns
    name := getTokenSecretNamePrefix serviceAccount ++ sfx
    annotations :=
      [(serviceAccountNameKey, serviceAccount.name),
       (serviceAccountUIDKey, serviceAccount.uid)]
    secretType := secretTypeServiceAccountToken
    data := [] }

/-- The generic error returned when the poll bound is exhausted:
fmt.Errorf("token never generated for %s", name). -/
def tokenTimeoutErr (name : String) : Err :=
  .other ("token never generated for " ++ name)

/-- The poll loop of createTokenSecret: up to `fuel` re-fetches of the token,
returning it on the first non-empty payload; on exhaustion the token is deleted
(a NotFound response tolerated, any other delete error only reported to the
sink) and the timeout error is returned. -/
def pollToken (tok : Secret) : Nat → Store → Except Err Secret × Store
  | 0, st =>
    match deleteSecret tok.ns tok.name st with
    | (.error de, st) =>
      if de.isNotFound then (.error (tokenTimeoutErr tok.name), st)
      else (.error (tokenTimeoutErr tok.name), handleError de st)
    | (.ok _, st) => (.error (tokenTimeoutErr tok.name), st)
  | fuel + 1, st =>
    match getSecret tok.ns tok.name st with
    | (.error err2, st) => (.error err2, st)
    | (.ok liveTokenSecret, st) =>
      if 0 < (lookupD liveTokenSecret.data serviceAccountTokenKey "").length then
        (.ok liveTokenSecret, st)
      else
        pollToken tok fuel st

/-- createTokenSecret from the source: create the placeholder token, then poll
for the external materializer to fill it, with the loop bound
`for i := 0; i <= tokenSecretWaitTimes; i++` giving tokenSecretWaitTimes + 1
fetch attempts. -/
def createTokenSecret (serviceAccount : ServiceAccount) (st : Store) :
    Except Err Secret × Store :=
  let (sfx, st) := genName st
  let tokenSecret := mkTokenSecret serviceAccount sfx
  match createSecret tokenSecret st with
  | (.error e, st) => (.error e, st)
  | (.ok _, st) => pollToken tokenSecret (tokenSecretWaitTimes + 1) st

/-- Renders a quoted JSON string (escaping is immaterial for the values the
controller produces). -/
def jsonStr (s : String) : String := "\"" ++ s ++ "\""

/-- The JSON serialization json.Marshal produces for the single-entry
credentialprovider.DockerConfig map built by createDockerPullSecret. -/
def dockercfgJSON (url user pass email : String) : String :=
  "\x7b" ++ jsonStr url ++ ":\x7b\"username\":" ++ jsonStr user ++
    ",\"password\":" ++ jsonStr pass ++ ",\"email\":" ++ jsonStr email ++ "\x7d\x7d"

/-- The dockercfg bundle object built by createDockerPullSecret before persisting
it: annotated with the owning principal's name and uid and the token's name, its
payload holding the marshalled single-entry credential map under the configured
registry endpoint, with the token's secret as password. -/
def mkDockercfgSecret (e : Ctl) (serviceAccount : ServiceAccount)
    (tokenSecret : Secret) (sfx : String) : Secret :=
  let dockercfgSecret : Secret :=
    { ns := tokenSecret.ns
      name := getDockercfgSecretNamePrefix serviceAccount ++ sfx
      annotations :=
        [(serviceAccountNameKey, serviceAccount.name),
         (serviceAccountUIDKey, serviceAccount.uid),
         (serviceAccountTokenSecretNameKey, tokenSecret.name)]
      secretType := secretTypeDockercfg
      data := [] }
  let dockercfgContent :=
    dockercfgJSON e.dockerURL "serviceaccount"
      (lookupD tokenSecret.data serviceAccountTokenKey "") "serviceaccount@example.org"
  { dockercfgSecret with data := upsert dockerConfigKey dockercfgContent dockercfgSecret.data }

/-- createDockerPullSecret from the source: materialize a token, then build and
persist the dockercfg bundle whose payload maps the configured registry endpoint
to the serviceaccount credentials carrying the token's secret as password. -/
def createDockerPullSecret (e : Ctl) (serviceAccount : ServiceAccount) (st : Store) :
    Except Err Secret × Store :=
  match createTokenSecret serviceAccount st with
  | (.error err, st) => (.error err, st)
  | (.ok tokenSecret, st) =>
    let (sfx, st) := genName st
    match createSecret (mkDockercfgSecret e serviceAccount tokenSecret sfx) st with
    | (.error err, st) => (.error err, st)
    | (.ok createdSecret, st) => (.ok createdSecret, st)

/-- Renders a Go %v of a string slice, for the stale-data diagnostic message. -/
def fmtList (l : List String) : String := "[" ++ String.intercalate " " l ++ "]"

/-- The diagnostic message of the stale-data Conflict error built by
createDockerPullSecretReference. -/
def staleDataMsg (nm : String) (sm sp m p : List String) : String :=
  "cannot add reference to " ++ nm ++ " based on stale data.  decision made for " ++
    fmtList sm ++ "," ++ fmtList sp ++ ", but live version is " ++
    fmtList m ++ "," ++ fmtList p

/-- createDockerPullSecretReference from the source.  Besides the result and the
final store, the middle component is the value of the caller-owned stale
snapshot after the call: the body never assigns through that pointer (the live
object is a fresh one decoded by the client Get), so every return site yields
the snapshot it received. -/
def createDockerPullSecretReference (staleServiceAccount : ServiceAccount)
    (dockercfgSecretName : String) (st : Store) :
    Except Err Unit × ServiceAccount × Store :=
  match getSA staleServiceAccount.ns staleServiceAccount.name st with
  | (.error err, st) => (.error err, staleServiceAccount, st)
  | (.ok liveServiceAccount, st) =>
    let (mountableDockercfgSecrets, imageDockercfgPullSecrets) :=
      getGeneratedDockercfgSecretNames liveServiceAccount
    let (staleDockercfgMountableSecrets, staleImageDockercfgPullSecrets) :=
      getGeneratedDockercfgSecretNames staleServiceAccount
    if staleDockercfgMountableSecrets ≠ mountableDockercfgSecrets ∨
        staleImageDockercfgPullSecrets ≠ imageDockercfgPullSecrets then
      (.error (.conflict "serviceaccount" staleServiceAccount.name
          (staleDataMsg dockercfgSecretName staleDockercfgMountableSecrets
            staleImageDockercfgPullSecrets mountableDockercfgSecrets
            imageDockercfgPullSecrets)),
       staleServiceAccount, st)
    else
      let changed1 := dockercfgSecretName ∉ mountableDockercfgSecrets
      let live1 :=
        if dockercfgSecretName ∈ mountableDockercfgSecrets then liveServiceAccount
        else { liveServiceAccount with
                secrets := liveServiceAccount.secrets ++ [dockercfgSecretName] }
      let changed2 := dockercfgSecretName ∉ imageDockercfgPullSecrets
      let live2 :=
        if dockercfgSecretName ∈ imageDockercfgPullSecrets then live1
        else { live1 with
                imagePullSecrets := live1.imagePullSecrets ++ [dockercfgSecretName] }
      if changed1 ∨ changed2 then
        match updateSA live2 st with
        | (.error err, st) => (.error err, staleServiceAccount, st)
        | (.ok _, st) => (.ok (), staleServiceAccount, st)
      else
        (.ok (), staleServiceAccount, st)

/-- createDockercfgSecretIfNeeded from the source, the reconciliation entry
point.  As above, the middle component of the result is the value of the
caller-owned snapshot after the call. -/
def createDockercfgSecretIfNeeded (e : Ctl) (serviceAccount : ServiceAccount)
    (st : Store) : Except Err Unit × ServiceAccount × Store :=
  let mountableDockercfgSecrets := (getGeneratedDockercfgSecretNames serviceAccount).1
  let imageDockercfgPullSecrets := (getGeneratedDockercfgSecretNames serviceAccount).2
  let foundPullSecret := 0 < imageDockercfgPullSecrets.length
  let foundMountableSecret := 0 < mountableDockercfgSecrets.length
  if foundPullSecret ∧ foundMountableSecret then
    (.ok (), serviceAccount, st)
  else if foundPullSecret ∨ foundMountableSecret then
    let dockercfgSecretName :=
      if foundPullSecret then imageDockercfgPullSecrets.headD ""
      else mountableDockercfgSecrets.headD ""
    let out := createDockerPullSecretReference serviceAccount dockercfgSecretName st
    (if isConflictE out.1 then .ok () else out.1, out.2.1, out.2.2)
  else
    match getSA serviceAccount.ns serviceAccount.name st with
    | (.error err, st) => (.error err, serviceAccount, st)
    | (.ok liveServiceAccount, st) =>
      if liveServiceAccount.resourceVersion ≠ serviceAccount.resourceVersion then
        (.ok (), serviceAccount, st)
      else
        match createDockerPullSecret e serviceAccount st with
        | (.error err, st) => (.error err, serviceAccount, st)
        | (.ok dockercfgSecret, st) =>
          let out := createDockerPullSecretReference serviceAccount dockercfgSecret.name st
          if isConflictE out.1 then
            match deleteSecret dockercfgSecret.ns dockercfgSecret.name out.2.2 with
            | (.error de, st) =>
              if de.isNotFound then (.ok (), serviceAccount, st)
              else (.ok (), serviceAccount, handleError de st)
            | (.ok _, st) => (.ok (), serviceAccount, st)
          else
            (out.1, serviceAccount, out.2.2)

/-! Order lemmas for the lexicographic comparison. -/

theorem strLtL_trans : ∀ (a b c : List Char),
    strLtL a b = true → strLtL b c = true → strLtL a c = true := by
  intro a
  induction a with
  | nil =>
    intro b c hab hbc
    cases b with
    | nil => simp [strLtL] at hab
    | cons bh bt =>
      cases c with
      | nil => simp [strLtL] at hbc
      | cons ch ct => simp [strLtL]
  | cons ah at_ ih =>
    intro b c hab hbc
    cases b with
    | nil => simp [strLtL] at hab
    | cons bh bt =>
      cases c with
      | nil => simp [strLtL] at hbc
      | cons ch ct =>
        simp only [strLtL] at hab hbc ⊢
        rcases Nat.lt_trichotomy ah.toNat bh.toNat with h1 | h1 | h1
        · rcases Nat.lt_trichotomy bh.toNat ch.toNat with h2 | h2 | h2
          · have : ah.toNat < ch.toNat := Nat.lt_trans h1 h2
            simp [this]
          · have : ah.toNat < ch.toNat := h2 ▸ h1
            simp [this]
          · simp [Nat.lt_asymm h2, h2] at hbc
        · rcases Nat.lt_trichotomy bh.toNat ch.toNat with h2 | h2 | h2
          · have : ah.toNat < ch.toNat := h1 ▸ h2
            simp [this]
          · have he : ah.toNat = ch.toNat := h1.trans h2
            have hab' : strLtL at_ bt = true := by
              simp [Nat.lt_irrefl, h1] at hab; exact hab
            have hbc' : strLtL bt ct = true := by
              simp [Nat.lt_irrefl, h2] at hbc; exact hbc
            simp [he, Nat.lt_irrefl]
            exact ih bt ct hab' hbc'
          · simp [Nat.lt_asymm h2, h2] at hbc
        · simp [Nat.lt_asymm h1, h1] at hab

theorem strLtL_connex : ∀ (a b : List Char),
    a ≠ b → strLtL a b = false → strLtL b a = true := by
  intro a
  induction a with
  | nil =>
    intro b hne hf
    cases b with
    | nil => exact absurd rfl hne
    | cons bh bt => simp [strLtL] at hf
  | cons ah at_ ih =>
    intro b hne hf
    cases b with
    | nil => simp [strLtL]
    | cons bh bt =>
      simp only [strLtL] at hf ⊢
      rcases Nat.lt_trichotomy ah.toNat bh.toNat with h | h | h
      · simp [h] at hf
      · have hc : ah = bh := Char.eq_of_val_eq (UInt32.eq_of_val_eq (Fin.ext h))
        subst hc
        simp only [Nat.lt_irrefl, if_false] at hf ⊢
        have hne' : at_ ≠ bt := by
          intro he; exact hne (by rw [he])
        exact ih bt hne' hf
      · simp [h, Nat.lt_asymm h]

theorem strLt_trans (a b c : String) (h1 : strLt a b = true) (h2 : strLt b c = true) :
    strLt a c = true :=
  strLtL_trans a.data b.data c.data h1 h2

theorem strLt_connex (a b : String) (hne : a ≠ b) (hf : strLt a b = false) :
    strLt b a = true := by
  refine strLtL_connex a.data b.data ?_ hf
  intro he
  apply hne
  cases a; cases b; simp_all

/-! Membership and sortedness of the classification sets. -/

theorem mem_sinsert (a x : String) (l : List String) :
    a ∈ sinsert x l ↔ a = x ∨ a ∈ l := by
  induction l with
  | nil => simp [sinsert]
  | cons y ys ih =>
    simp only [sinsert]
    split
    · simp [List.mem_cons]
    · split
      · next h2 =>
        subst h2
        simp only [List.mem_cons]
        constructor
        · exact fun h => Or.inr h
        · rintro (rfl | h)
          · exact Or.inl rfl
          · exact h
      · simp only [List.mem_cons, ih]
        constructor
        · rintro (rfl | h | h)
          · exact Or.inr (Or.inl rfl)
          · exact Or.inl h
          · exact Or.inr (Or.inr h)
        · rintro (rfl | rfl | h)
          · exact Or.inr (Or.inl rfl)
          · exact Or.inl rfl
          · exact Or.inr (Or.inr h)

theorem sorted_sinsert (x : String) (l : List String)
    (h : l.Sorted (fun a b => strLt a b = true)) :
    (sinsert x l).Sorted (fun a b => strLt a b = true) := by
  induction l with
  | nil => simp [sinsert]
  | cons y ys ih =>
    rw [List.sorted_cons] at h
    obtain ⟨hy, hys⟩ := h
    simp only [sinsert]
    split
    · next hlt =>
      refine List.sorted_cons.mpr ⟨?_, List.sorted_cons.mpr ⟨hy, hys⟩⟩
      intro b hb
      rcases List.mem_cons.mp hb with rfl | hb
      · exact hlt
      · exact strLt_trans x y b hlt (hy b hb)
    · split
      · exact List.sorted_cons.mpr ⟨hy, hys⟩
      · next hlt heq =>
        have hyx : strLt y x = true :=
          strLt_connex x y heq (Bool.eq_false_iff.mpr hlt)
        refine List.sorted_cons.mpr ⟨?_, ih hys⟩
        intro b hb
        rcases (mem_sinsert b x ys).mp hb with rfl | hb
        · exact hyx
        · exact hy b hb

theorem sinsert_ne_nil (x : String) (l : List String) : sinsert x l ≠ [] := by
  cases l with
  | nil => simp [sinsert]
  | cons y ys =>
    simp only [sinsert]
    split
    · simp
    · split <;> simp

theorem mem_classify_foldl (pfx a : String) :
    ∀ (l acc : List String),
      a ∈ l.foldl (fun acc n => if hasPfx pfx n then sinsert n acc else acc) acc ↔
        a ∈ acc ∨ (a ∈ l ∧ hasPfx pfx a = true) := by
  intro l
  induction l with
  | nil => simp
  | cons n ns ih =>
    intro acc
    rw [List.foldl_cons, ih]
    by_cases hp : hasPfx pfx n = true
    · simp only [hp, if_true, mem_sinsert, List.mem_cons]
      constructor
      · rintro ((rfl | h) | h)
        · exact Or.inr ⟨Or.inl rfl, hp⟩
        · exact Or.inl h
        · exact Or.inr ⟨Or.inr h.1, h.2⟩
      · rintro (h | ⟨rfl | h, hpa⟩)
        · exact Or.inl (Or.inr h)
        · exact Or.inl (Or.inl rfl)
        · exact Or.inr ⟨h, hpa⟩
    · simp only [hp, if_false, List.mem_cons]
      constructor
      · rintro (h | h)
        · exact Or.inl h
        · exact Or.inr ⟨Or.inr h.1, h.2⟩
      · rintro (h | ⟨rfl | h, hpa⟩)
        · exact Or.inl h
        · exact absurd hpa hp
        · exact Or.inr ⟨h, hpa⟩

theorem mem_classify (pfx a : String) (l : List String) :
    a ∈ classify pfx l ↔ a ∈ l ∧ hasPfx pfx a = true := by
  unfold classify
  rw [mem_classify_foldl]
  simp

theorem sorted_classify_foldl (pfx : String) :
    ∀ (l acc : List String), acc.Sorted (fun a b => strLt a b = true) →
      (l.foldl (fun acc n => if hasPfx pfx n then sinsert n acc else acc) acc).Sorted
        (fun a b => strLt a b = true) := by
  intro l
  induction l with
  | nil => intro acc h; exact h
  | cons n ns ih =>
    intro acc h
    rw [List.foldl_cons]
    apply ih
    by_cases hp : hasPfx pfx n = true
    · simpa [hp] using sorted_sinsert n acc h
    · simpa [hp] using h

theorem sorted_classify (pfx : String) (l : List String) :
    (classify pfx l).Sorted (fun a b => strLt a b = true) :=
  sorted_classify_foldl pfx l [] (by simp)

theorem classify_append_one (pfx x : String) (l : List String) :
    classify pfx (l ++ [x]) =
      if hasPfx pfx x then sinsert x (classify pfx l) else classify pfx l := by
  unfold classify
  rw [List.foldl_append, List.foldl_cons, List.foldl_nil]

theorem hasPfx_append (p t : String) : hasPfx p (p ++ t) = true := by
  unfold hasPfx
  rw [String.data_append, List.isPrefixOf_iff_prefix]
  exact List.prefix_append _ _

/-! Basic facts about external events and the store primitives. -/

/-- The namespace/name keys of the stored secrets, in order. -/
def secretKeys (st : Store) : List (String × String) :=
  st.secrets.map fun s => (s.ns, s.name)

/-- No pending external event writes to a service account. -/
def accountsQuiet (st : Store) : Prop := ∀ e ∈ st.pending, e.isQuiet = true

theorem applyExt_pending (e : ExtEvent) (st : Store) :
    (applyExt e st).pending = st.pending := by
  cases e <;> rfl

theorem applyExt_reported (e : ExtEvent) (st : Store) :
    (applyExt e st).reported = st.reported := by
  cases e <;> rfl

theorem applyExt_nameSeq (e : ExtEvent) (st : Store) :
    (applyExt e st).nameSeq = st.nameSeq := by
  cases e <;> rfl

theorem applyExt_secretKeys (e : ExtEvent) (st : Store) :
    secretKeys (applyExt e st) = secretKeys st := by
  cases e with
  | skip => rfl
  | updSA ns n s p => rfl
  | fill ns n v =>
    simp only [applyExt, secretKeys, List.map_map]
    apply List.map_congr_left
    intro s _
    simp only [Function.comp]
    split <;> rfl

theorem applyExt_accounts (e : ExtEvent) (st : Store) (h : e.isQuiet = true) :
    (applyExt e st).accounts = st.accounts := by
  cases e with
  | skip => rfl
  | fill ns n v => rfl
  | updSA ns n s p => simp [ExtEvent.isQuiet] at h

theorem tick_pending (st : Store) : (tick st).pending = st.pending.tail := by
  unfold tick
  cases h : st.pending with
  | nil => simp [h]
  | cons e rest => simp [applyExt_pending]

theorem tick_reported (st : Store) : (tick st).reported = st.reported := by
  unfold tick
  cases h : st.pending with
  | nil => rfl
  | cons e rest => simp [applyExt_reported]

theorem tick_nameSeq (st : Store) : (tick st).nameSeq = st.nameSeq := by
  unfold tick
  cases h : st.pending with
  | nil => rfl
  | cons e rest => simp [applyExt_nameSeq]

theorem tick_secretKeys (st : Store) : secretKeys (tick st) = secretKeys st := by
  unfold tick
  cases h : st.pending with
  | nil => rfl
  | cons e rest => rw [applyExt_secretKeys]; rfl

theorem tick_accounts (st : Store) (hq : accountsQuiet st) :
    (tick st).accounts = st.accounts := by
  unfold tick
  cases h : st.pending with
  | nil => rfl
  | cons e rest =>
    have he : e.isQuiet = true := hq e (by rw [h]; exact List.mem_cons_self e rest)
    rw [applyExt_accounts _ _ he]

theorem tick_quiet (st : Store) (hq : accountsQuiet st) : accountsQuiet (tick st) := by
  intro e he
  apply hq
  rw [tick_pending] at he
  exact List.tail_subset _ he

theorem findSA_tick (st : Store) (ns n : String) (hq : accountsQuiet st) :
    findSA (tick st) ns n = findSA st ns n := by
  unfold findSA
  rw [tick_accounts st hq]

theorem findSA_fields (st : Store) (ns n : String) (a : ServiceAccount)
    (h : findSA st ns n = some a) : a.ns = ns ∧ a.name = n := by
  have := List.find?_some h
  simp only [Bool.and_eq_true, beq_iff_eq] at this
  exact this

theorem findSecret_fields (st : Store) (ns n : String) (s : Secret)
    (h : findSecret st ns n = some s) : s.ns = ns ∧ s.name = n := by
  have := List.find?_some h
  simp only [Bool.and_eq_true, beq_iff_eq] at this
  exact this

theorem findSecret_none_iff (st : Store) (ns n : String) :
    findSecret st ns n = none ↔
      ∀ p ∈ secretKeys st, (p.1 == ns && p.2 == n) = false := by
  unfold findSecret secretKeys
  rw [List.find?_eq_none]
  constructor
  · intro h p hp
    obtain ⟨s, hs, rfl⟩ := List.mem_map.mp hp
    simpa using h s hs
  · intro h s hs
    have := h (s.ns, s.name) (List.mem_map_of_mem _ hs)
    simpa using this

theorem findSecret_none_of_keys (st st' : Store) (ns n : String)
    (hk : secretKeys st' = secretKeys st) (h : findSecret st ns n = none) :
    findSecret st' ns n = none := by
  rw [findSecret_none_iff] at h ⊢
  rw [hk]
  exact h

/-! Inversion and computation lemmas for the store operations. -/

theorem getSA_store (ns n : String) (st : Store) : (getSA ns n st).2 = tick st := by
  unfold getSA
  cases h : findSA (tick st) ns n <;> simp [h]

theorem getSA_eq (ns n : String) (st : Store) (a : ServiceAccount)
    (h : findSA (tick st) ns n = some a) : getSA ns n st = (.ok a, tick st) := by
  unfold getSA
  rw [h]

theorem getSA_ok_inv (ns n : String) (st st₁ : Store) (live : ServiceAccount)
    (h : getSA ns n st = (.ok live, st₁)) :
    st₁ = tick st ∧ findSA (tick st) ns n = some live := by
  unfold getSA at h
  cases hf : findSA (tick st) ns n <;> rw [hf] at h
  · simp at h
  · simp only [Prod.mk.injEq, Except.ok.injEq] at h
    obtain ⟨h1, h2⟩ := h
    subst h1
    exact ⟨h2.symm, rfl⟩

theorem getSecret_store (ns n : String) (st : Store) :
    (getSecret ns n st).2 = tick st := by
  unfold getSecret
  cases h : findSecret (tick st) ns n <;> simp [h]

theorem createSecret_eq (sec : Secret) (st : Store)
    (h : findSecret (tick st) sec.ns sec.name = none) :
    createSecret sec st = (.ok sec, { tick st with secrets := sec :: (tick st).secrets }) := by
  unfold createSecret
  rw [h]

theorem createSecret_ok_inv (sec r : Secret) (st st' : Store)
    (h : createSecret sec st = (.ok r, st')) :
    r = sec ∧ st' = { tick st with secrets := sec :: (tick st).secrets } := by
  unfold createSecret at h
  cases hf : findSecret (tick st) sec.ns sec.name <;> rw [hf] at h
  · simp only [Prod.mk.injEq, Except.ok.injEq] at h
    obtain ⟨h1, h2⟩ := h
    exact ⟨h1.symm, h2.symm⟩
  · simp at h

theorem createSecret_store_frame (sec : Secret) (st : Store) :
    (createSecret sec st).2.accounts = (tick st).accounts ∧
      (createSecret sec st).2.pending = (tick st).pending ∧
      (createSecret sec st).2.reported = (tick st).reported := by
  unfold createSecret
  cases h : findSecret (tick st) sec.ns sec.name <;> simp [h]

theorem deleteSecret_store_frame (ns n : String) (st : Store) :
    (deleteSecret ns n st).2.accounts = (tick st).accounts ∧
      (deleteSecret ns n st).2.pending = (tick st).pending ∧
      (deleteSecret ns n st).2.reported = (tick st).reported := by
  unfold deleteSecret
  cases h : findSecret (tick st) ns n <;> simp [h]

theorem deleteSecret_err (ns n : String) (st : Store) (e : Err)
    (h : (deleteSecret ns n st).1 = .error e) : e = Err.notFound "secret" n := by
  unfold deleteSecret at h
  cases hf : findSecret (tick st) ns n <;> rw [hf] at h
  · simp only [Except.error.injEq] at h
    exact h.symm
  · simp at h

theorem deleteSecret_absent (ns n : String) (st : Store) :
    findSecret (deleteSecret ns n st).2 ns n = none := by
  unfold deleteSecret
  cases hf : findSecret (tick st) ns n with
  | none => exact hf
  | some s =>
    show findSecret { tick st with
      secrets := (tick st).secrets.filter fun s => !(s.ns == ns && s.name == n) } ns n = none
    unfold findSecret
    rw [List.find?_eq_none]
    intro x hx
    have hm := (List.mem_filter.mp hx).2
    simp only [Bool.not_eq_true'] at hm
    simp [hm]

theorem handleError_frame (e : Err) (st : Store) :
    (handleError e st).accounts = st.accounts ∧
      (handleError e st).secrets = st.secrets ∧
      (handleError e st).pending = st.pending := by
  exact ⟨rfl, rfl, rfl⟩

theorem updateSA_ok (w : ServiceAccount) (st : Store) (cur : ServiceAccount)
    (hfind : findSA (tick st) w.ns w.name = some cur)
    (hrv : cur.resourceVersion = w.resourceVersion) :
    updateSA w st = (.ok { w with resourceVersion := w.resourceVersion + 1 },
      { tick st with accounts := (tick st).accounts.map fun a =>
          if a.ns == w.ns && a.name == w.name then
            { w with resourceVersion := w.resourceVersion + 1 }
          else a }) := by
  unfold updateSA
  rw [hfind]
  simp [hrv]

theorem updateSA_ok_inv (w : ServiceAccount) (st st' : Store) (u : ServiceAccount)
    (h : updateSA w st = (.ok u, st')) :
    u = { w with resourceVersion := w.resourceVersion + 1 } ∧
      st' = { tick st with accounts := (tick st).accounts.map fun a =>
          if a.ns == w.ns && a.name == w.name then
            { w with resourceVersion := w.resourceVersion + 1 }
          else a } ∧
      ∃ cur, findSA (tick st) w.ns w.name = some cur ∧
        cur.resourceVersion = w.resourceVersion := by
  unfold updateSA at h
  split at h
  · simp at h
  · next cur hf =>
    split at h
    · simp at h
    · next hrv =>
      simp only [Prod.mk.injEq, Except.ok.injEq] at h
      obtain ⟨h1, h2⟩ := h
      exact ⟨h1.symm, h2.symm, cur, hf, not_ne_iff.mp hrv⟩

theorem find?_map_replace (l : List ServiceAccount) (ns n : String)
    (upd : ServiceAccount) (hns : upd.ns = ns) (hn : upd.name = n) (cur : ServiceAccount)
    (hfind : l.find? (fun a => a.ns == ns && a.name == n) = some cur) :
    (l.map fun a => if a.ns == ns && a.name == n then upd else a).find?
        (fun a => a.ns == ns && a.name == n) = some upd := by
  induction l with
  | nil => simp at hfind
  | cons a as ih =>
    by_cases h : (a.ns == ns && a.name == n) = true
    · simp only [List.map_cons, h, if_true]
      rw [List.find?]
      simp [hns, hn]
    · rw [List.find?] at hfind
      rw [Bool.not_eq_true] at h
      rw [h] at hfind
      simp only [List.map_cons, h, if_false, Bool.false_eq_true]
      rw [List.find?, h]
      exact ih hfind

/-! Facts about the reference linker. -/

theorem findSA_replace_general (l : List ServiceAccount) (ns n : String)
    (w upd : ServiceAccount) (hns : upd.ns = ns) (hn : upd.name = n)
    (hwns : w.ns = ns) (hwn : w.name = n) (cur : ServiceAccount)
    (hfind : l.find? (fun a => a.ns == ns && a.name == n) = some cur) :
    (l.map fun a => if a.ns == w.ns && a.name == w.name then upd else a).find?
        (fun a => a.ns == ns && a.name == n) = some upd := by
  subst hwns
  subst hwn
  exact find?_map_replace l w.ns w.name upd hns hn cur hfind

theorem getGen_fst (sa : ServiceAccount) :
    (getGeneratedDockercfgSecretNames sa).1 =
      classify (getDockercfgSecretNamePrefix sa) sa.secrets := rfl

theorem getGen_snd (sa : ServiceAccount) :
    (getGeneratedDockercfgSecretNames sa).2 =
      classify (getDockercfgSecretNamePrefix sa) sa.imagePullSecrets := rfl

theorem accountsQuiet_of_pending (st st' : Store) (h : st'.pending = st.pending)
    (hq : accountsQuiet st) : accountsQuiet st' := by
  intro e he
  exact hq e (h ▸ he)

/-- The service account the reference linker hands to the store update: the live
object with the bundle name appended to whichever lists the live classification
sets lack it in. -/
def linkUpd (live : ServiceAccount) (nm : String) : ServiceAccount :=
  { live with
    secrets :=
      if nm ∈ (getGeneratedDockercfgSecretNames live).1 then live.secrets
      else live.secrets ++ [nm],
    imagePullSecrets :=
      if nm ∈ (getGeneratedDockercfgSecretNames live).2 then live.imagePullSecrets
      else live.imagePullSecrets ++ [nm] }

theorem linkRef_disagree (sa : ServiceAccount) (nm : String) (st : Store)
    (live : ServiceAccount)
    (hfind : findSA (tick st) sa.ns sa.name = some live)
    (hne : getGeneratedDockercfgSecretNames sa ≠ getGeneratedDockercfgSecretNames live) :
    createDockerPullSecretReference sa nm st =
      (.error (.conflict "serviceaccount" sa.name
        (staleDataMsg nm (getGeneratedDockercfgSecretNames sa).1
          (getGeneratedDockercfgSecretNames sa).2
          (getGeneratedDockercfgSecretNames live).1
          (getGeneratedDockercfgSecretNames live).2)),
       sa, tick st) := by
  have hcond : (getGeneratedDockercfgSecretNames sa).1 ≠ (getGeneratedDockercfgSecretNames live).1 ∨
      (getGeneratedDockercfgSecretNames sa).2 ≠ (getGeneratedDockercfgSecretNames live).2 := by
    by_contra hc
    push_neg at hc
    exact hne (Prod.ext hc.1 hc.2)
  unfold createDockerPullSecretReference
  rw [getSA_eq sa.ns sa.name st live hfind]
  simp only []
  rw [if_pos hcond]

theorem linkRef_agree (sa : ServiceAccount) (nm : String) (st : Store)
    (live : ServiceAccount)
    (hfind : findSA (tick st) sa.ns sa.name = some live)
    (hcls : getGeneratedDockercfgSecretNames sa = getGeneratedDockercfgSecretNames live) :
    (nm ∈ (getGeneratedDockercfgSecretNames live).1 ∧
        nm ∈ (getGeneratedDockercfgSecretNames live).2 →
      createDockerPullSecretReference sa nm st = (.ok (), sa, tick st)) ∧
    (¬(nm ∈ (getGeneratedDockercfgSecretNames live).1 ∧
        nm ∈ (getGeneratedDockercfgSecretNames live).2) →
      createDockerPullSecretReference sa nm st =
        (match updateSA (linkUpd live nm) (tick st) with
         | (.error err, st2) => (.error err, sa, st2)
         | (.ok _, st2) => (.ok (), sa, st2))) := by
  have hcond : ¬((getGeneratedDockercfgSecretNames sa).1 ≠ (getGeneratedDockercfgSecretNames live).1 ∨
      (getGeneratedDockercfgSecretNames sa).2 ≠ (getGeneratedDockercfgSecretNames live).2) := by
    rw [hcls]
    simp
  constructor
  · intro ⟨hm1, hm2⟩
    unfold createDockerPullSecretReference
    rw [getSA_eq sa.ns sa.name st live hfind]
    simp only []
    rw [if_neg hcond, if_pos hm1, if_pos hm2]
    rw [if_neg (by simp [hm1, hm2])]
  · intro hnb
    unfold createDockerPullSecretReference
    rw [getSA_eq sa.ns sa.name st live hfind]
    simp only []
    rw [if_neg hcond]
    by_cases hm1 : nm ∈ (getGeneratedDockercfgSecretNames live).1 <;>
      by_cases hm2 : nm ∈ (getGeneratedDockercfgSecretNames live).2
    · exact absurd ⟨hm1, hm2⟩ hnb
    · rw [if_pos hm1, if_neg hm2]
      rw [if_pos (by simp [hm1, hm2])]
      unfold linkUpd
      rw [if_pos hm1, if_neg hm2]
    · rw [if_neg hm1, if_pos hm2]
      rw [if_pos (by simp [hm1, hm2])]
      unfold linkUpd
      rw [if_neg hm1, if_pos hm2]
    · rw [if_neg hm1, if_neg hm2]
      rw [if_pos (by simp [hm1, hm2])]
      unfold linkUpd
      rw [if_neg hm1, if_neg hm2]

theorem linkRef_self_update (sa : ServiceAccount) (nm : String) (st : Store)
    (hq : accountsQuiet st)
    (hlive : findSA st sa.ns sa.name = some sa)
    (hnb : ¬(nm ∈ (getGeneratedDockercfgSecretNames sa).1 ∧
        nm ∈ (getGeneratedDockercfgSecretNames sa).2)) :
    ∃ st2, createDockerPullSecretReference sa nm st = (.ok (), sa, st2) ∧
      findSA st2 sa.ns sa.name =
        some { linkUpd sa nm with resourceVersion := sa.resourceVersion + 1 } ∧
      accountsQuiet st2 ∧ secretKeys st2 = secretKeys st ∧ st2.reported = st.reported := by
  have hq1 : accountsQuiet (tick st) := tick_quiet st hq
  have hfind1 : findSA (tick st) sa.ns sa.name = some sa := by
    rw [findSA_tick st _ _ hq]; exact hlive
  have hfind2 : findSA (tick (tick st)) sa.ns sa.name = some sa := by
    rw [findSA_tick _ _ _ hq1]; exact hfind1
  have heq := (linkRef_agree sa nm st sa hfind1 rfl).2 hnb
  have hupd := updateSA_ok (linkUpd sa nm) (tick st) sa hfind2 rfl
  rw [hupd] at heq
  refine ⟨_, heq, ?_, ?_, ?_, ?_⟩
  · exact find?_map_replace _ _ _ _ rfl rfl sa hfind2
  · refine accountsQuiet_of_pending (tick (tick st)) _ rfl (tick_quiet _ hq1)
  · show secretKeys { tick (tick st) with accounts := _ } = secretKeys st
    have h1 : secretKeys { tick (tick st) with
        accounts := (tick (tick st)).accounts.map fun a =>
          if a.ns == (linkUpd sa nm).ns && a.name == (linkUpd sa nm).name then
            { linkUpd sa nm with
                resourceVersion := (linkUpd sa nm).resourceVersion + 1 }
          else a } = secretKeys (tick (tick st)) := rfl
    rw [h1, tick_secretKeys, tick_secretKeys]
  · show ({ tick (tick st) with accounts := _ } : Store).reported = st.reported
    have h1 : ({ tick (tick st) with
        accounts := (tick (tick st)).accounts.map fun a =>
          if a.ns == (linkUpd sa nm).ns && a.name == (linkUpd sa nm).name then
            { linkUpd sa nm with
                resourceVersion := (linkUpd sa nm).resourceVersion + 1 }
          else a } : Store).reported = (tick (tick st)).reported := rfl
    rw [h1, tick_reported, tick_reported]

theorem updateSA_frame (w : ServiceAccount) (st : Store) :
    secretKeys (updateSA w st).2 = secretKeys (tick st) ∧
      (updateSA w st).2.pending = (tick st).pending ∧
      (updateSA w st).2.reported = (tick st).reported := by
  unfold updateSA
  cases hf : findSA (tick st) w.ns w.name with
  | none => exact ⟨rfl, rfl, rfl⟩
  | some cur =>
    dsimp only
    by_cases hrv : cur.resourceVersion ≠ w.resourceVersion
    · rw [if_pos hrv]
      exact ⟨rfl, rfl, rfl⟩
    · rw [if_neg hrv]
      exact ⟨rfl, rfl, rfl⟩

theorem linkRef_snapOut (sa : ServiceAccount) (nm : String) (st : Store) :
    (createDockerPullSecretReference sa nm st).2.1 = sa := by
  unfold createDockerPullSecretReference
  rcases hg : getSA sa.ns sa.name st with ⟨r, st₁⟩
  cases r with
  | error e => rfl
  | ok live =>
    dsimp only
    split
    · rfl
    · split
      · split <;> rfl
      · rfl

theorem linkRef_frame (sa : ServiceAccount) (nm : String) (st : Store) :
    secretKeys (createDockerPullSecretReference sa nm st).2.2 = secretKeys st ∧
      (createDockerPullSecretReference sa nm st).2.2.reported = st.reported := by
  unfold createDockerPullSecretReference
  rcases hg : getSA sa.ns sa.name st with ⟨r, st₁⟩
  have hst₁ : st₁ = tick st := by
    have := getSA_store sa.ns sa.name st
    rw [hg] at this
    exact this
  subst hst₁
  cases r with
  | error e => exact ⟨tick_secretKeys st, tick_reported st⟩
  | ok live =>
    dsimp only
    split
    · exact ⟨tick_secretKeys st, tick_reported st⟩
    · split
      · split
        · next err st₂ heq =>
          have h2 := congrArg Prod.snd heq
          dsimp only at h2
          refine ⟨?_, ?_⟩
          · show secretKeys st₂ = secretKeys st
            rw [← h2, (updateSA_frame _ (tick st)).1, tick_secretKeys, tick_secretKeys]
          · show st₂.reported = st.reported
            rw [← h2, (updateSA_frame _ (tick st)).2.2, tick_reported, tick_reported]
        · next u st₂ heq =>
          have h2 := congrArg Prod.snd heq
          dsimp only at h2
          refine ⟨?_, ?_⟩
          · show secretKeys st₂ = secretKeys st
            rw [← h2, (updateSA_frame _ (tick st)).1, tick_secretKeys, tick_secretKeys]
          · show st₂.reported = st.reported
            rw [← h2, (updateSA_frame _ (tick st)).2.2, tick_reported, tick_reported]
      · exact ⟨tick_secretKeys st, tick_reported st⟩

theorem pollToken_frame (tok : Secret) :
    ∀ (fuel : Nat) (st : Store), accountsQuiet st →
      (pollToken tok fuel st).2.accounts = st.accounts ∧
      accountsQuiet (pollToken tok fuel st).2 ∧
      (pollToken tok fuel st).2.reported = st.reported := by
  intro fuel
  induction fuel with
  | zero =>
    intro st hq
    unfold pollToken
    rcases hd : deleteSecret tok.ns tok.name st with ⟨rd, st'⟩
    have hfr := deleteSecret_store_frame tok.ns tok.name st
    rw [hd] at hfr
    obtain ⟨ha, hp, hr⟩ := hfr
    have hacc : st'.accounts = st.accounts := by rw [ha, tick_accounts st hq]
    have hq' : accountsQuiet st' :=
      accountsQuiet_of_pending (tick st) st' hp (tick_quiet st hq)
    have hrep : st'.reported = st.reported := by rw [hr, tick_reported]
    cases rd with
    | ok u => exact ⟨hacc, hq', hrep⟩
    | error de =>
      have hde : de = Err.notFound "secret" tok.name :=
        deleteSecret_err tok.ns tok.name st de (by rw [hd])
      subst hde
      simp only [Err.isNotFound, if_true]
      exact ⟨hacc, hq', hrep⟩
  | succ k ih =>
    intro st hq
    unfold pollToken
    rcases hg : getSecret tok.ns tok.name st with ⟨rg, st'⟩
    have hst' : st' = tick st := by
      have := getSecret_store tok.ns tok.name st
      rw [hg] at this
      exact this
    subst hst'
    cases rg with
    | error e2 => exact ⟨tick_accounts st hq, tick_quiet st hq, tick_reported st⟩
    | ok live =>
      dsimp only
      split
      · exact ⟨tick_accounts st hq, tick_quiet st hq, tick_reported st⟩
      · obtain ⟨h1, h2, h3⟩ := ih (tick st) (tick_quiet st hq)
        exact ⟨by rw [h1, tick_accounts st hq], h2, by rw [h3, tick_reported]⟩

theorem createTokenSecret_frame (sa : ServiceAccount) (st : Store) (hq : accountsQuiet st) :
    (createTokenSecret sa st).2.accounts = st.accounts ∧
    accountsQuiet (createTokenSecret sa st).2 ∧
    (createTokenSecret sa st).2.reported = st.reported := by
  unfold createTokenSecret genName
  dsimp only
  have hq1 : accountsQuiet { st with nameSeq := st.nameSeq.tail } :=
    accountsQuiet_of_pending st _ rfl hq
  rcases hc : createSecret (mkTokenSecret sa (genSuffix st))
      { st with nameSeq := st.nameSeq.tail } with ⟨rc, st₂⟩
  have hfr := createSecret_store_frame (mkTokenSecret sa (genSuffix st))
      { st with nameSeq := st.nameSeq.tail }
  rw [hc] at hfr
  obtain ⟨ha, hp, hr⟩ := hfr
  have hacc : st₂.accounts = st.accounts := by
    rw [ha, tick_accounts _ hq1]
  have hq₂ : accountsQuiet st₂ :=
    accountsQuiet_of_pending (tick { st with nameSeq := st.nameSeq.tail }) st₂ hp
      (tick_quiet _ hq1)
  have hrep : st₂.reported = st.reported := by
    rw [hr, tick_reported]
  cases rc with
  | error e => exact ⟨hacc, hq₂, hrep⟩
  | ok c =>
    obtain ⟨h1, h2, h3⟩ := pollToken_frame (mkTokenSecret sa (genSuffix st))
      (tokenSecretWaitTimes + 1) st₂ hq₂
    exact ⟨by rw [h1, hacc], h2, by rw [h3, hrep]⟩

theorem createDockerPullSecret_frame (e : Ctl) (sa : ServiceAccount) (st : Store)
    (hq : accountsQuiet st) :
    (createDockerPullSecret e sa st).2.accounts = st.accounts ∧
    accountsQuiet (createDockerPullSecret e sa st).2 ∧
    (createDockerPullSecret e sa st).2.reported = st.reported := by
  unfold createDockerPullSecret
  rcases hct : createTokenSecret sa st with ⟨rt, st₁⟩
  have hfr := createTokenSecret_frame sa st hq
  rw [hct] at hfr
  obtain ⟨ha, hqt, hr⟩ := hfr
  cases rt with
  | error err => exact ⟨ha, hqt, hr⟩
  | ok tok =>
    unfold genName
    dsimp only
    have hq2 : accountsQuiet { st₁ with nameSeq := st₁.nameSeq.tail } :=
      accountsQuiet_of_pending st₁ _ rfl hqt
    split
    · next err st₃ heq =>
      have h2 := congrArg Prod.snd heq
      dsimp only at h2
      refine ⟨?_, ?_, ?_⟩
      · show st₃.accounts = st.accounts
        rw [← h2, (createSecret_store_frame _ _).1, tick_accounts _ hq2]
        exact ha
      · show accountsQuiet st₃
        refine accountsQuiet_of_pending (tick { st₁ with nameSeq := st₁.nameSeq.tail })
          st₃ ?_ (tick_quiet _ hq2)
        rw [← h2]
        exact (createSecret_store_frame _ _).2.1
      · show st₃.reported = st.reported
        rw [← h2, (createSecret_store_frame _ _).2.2, tick_reported]
        exact hr
    · next created st₃ heq =>
      have h2 := congrArg Prod.snd heq
      dsimp only at h2
      refine ⟨?_, ?_, ?_⟩
      · show st₃.accounts = st.accounts
        rw [← h2, (createSecret_store_frame _ _).1, tick_accounts _ hq2]
        exact ha
      · show accountsQuiet st₃
        refine accountsQuiet_of_pending (tick { st₁ with nameSeq := st₁.nameSeq.tail })
          st₃ ?_ (tick_quiet _ hq2)
        rw [← h2]
        exact (createSecret_store_frame _ _).2.1
      · show st₃.reported = st.reported
        rw [← h2, (createSecret_store_frame _ _).2.2, tick_reported]
        exact hr

theorem createDockerPullSecret_ok_name (e : Ctl) (sa : ServiceAccount) (st : Store)
    (b : Secret) (h : (createDockerPullSecret e sa st).1 = .ok b) :
    hasPfx (getDockercfgSecretNamePrefix sa) b.name = true := by
  unfold createDockerPullSecret at h
  rcases hct : createTokenSecret sa st with ⟨rt, st₁⟩
  rw [hct] at h
  cases rt with
  | error err => simp at h
  | ok tok =>
    unfold genName at h
    dsimp only at h
    split at h
    · simp at h
    · next created st₃ heq =>
      dsimp only at h
      simp only [Except.ok.injEq] at h
      obtain ⟨hcr, _⟩ := createSecret_ok_inv _ _ _ _ heq
      rw [← h, hcr]
      show hasPfx (getDockercfgSecretNamePrefix sa)
        (getDockercfgSecretNamePrefix sa ++ genSuffix st₁) = true
      exact hasPfx_append _ _

theorem linkRef_ok_linked (sa : ServiceAccount) (nm : String) (st : Store)
    (h : (createDockerPullSecretReference sa nm st).1 = .ok ()) :
    ∃ p, findSA (createDockerPullSecretReference sa nm st).2.2 sa.ns sa.name = some p ∧
      nm ∈ p.secrets ∧ nm ∈ p.imagePullSecrets := by
  cases hf : findSA (tick st) sa.ns sa.name with
  | none =>
    unfold createDockerPullSecretReference at h
    rw [getSA] at h
    rw [hf] at h
    simp at h
  | some live =>
    by_cases hcls : getGeneratedDockercfgSecretNames sa = getGeneratedDockercfgSecretNames live
    · by_cases hb : nm ∈ (getGeneratedDockercfgSecretNames live).1 ∧
          nm ∈ (getGeneratedDockercfgSecretNames live).2
      · have heq := (linkRef_agree sa nm st live hf hcls).1 hb
        rw [heq]
        refine ⟨live, hf, ?_, ?_⟩
        · exact ((mem_classify _ _ _).mp (getGen_fst live ▸ hb.1)).1
        · exact ((mem_classify _ _ _).mp (getGen_snd live ▸ hb.2)).1
      · have heq := (linkRef_agree sa nm st live hf hcls).2 hb
        rcases hu : updateSA (linkUpd live nm) (tick st) with ⟨ru, st₂⟩
        rw [hu] at heq
        cases ru with
        | error err =>
          rw [heq] at h
          simp at h
        | ok u =>
          rw [heq]
          obtain ⟨hu1, hu2, cur, hcur, hrv⟩ := updateSA_ok_inv _ _ _ _ hu
          refine ⟨{ linkUpd live nm with
              resourceVersion := (linkUpd live nm).resourceVersion + 1 }, ?_, ?_, ?_⟩
          · show findSA st₂ sa.ns sa.name = _
            rw [hu2]
            have hns : (linkUpd live nm).ns = sa.ns := (findSA_fields _ _ _ _ hf).1
            have hn : (linkUpd live nm).name = sa.name := (findSA_fields _ _ _ _ hf).2
            rw [hns, hn] at hcur
            exact findSA_replace_general (tick (tick st)).accounts sa.ns sa.name
              (linkUpd live nm)
              { linkUpd live nm with resourceVersion := (linkUpd live nm).resourceVersion + 1 }
              hns hn hns hn cur hcur
          · show nm ∈ (linkUpd live nm).secrets
            unfold linkUpd
            by_cases hm1 : nm ∈ (getGeneratedDockercfgSecretNames live).1
            · rw [if_pos hm1]
              exact ((mem_classify _ _ _).mp (getGen_fst live ▸ hm1)).1
            · rw [if_neg hm1]
              exact List.mem_append_right _ (List.mem_singleton.mpr rfl)
          · show nm ∈ (linkUpd live nm).imagePullSecrets
            unfold linkUpd
            by_cases hm2 : nm ∈ (getGeneratedDockercfgSecretNames live).2
            · rw [if_pos hm2]
              exact ((mem_classify _ _ _).mp (getGen_snd live ▸ hm2)).1
            · rw [if_neg hm2]
              exact List.mem_append_right _ (List.mem_singleton.mpr rfl)
    · have heq := linkRef_disagree sa nm st live hf hcls
      rw [heq] at h
      simp at h

/-! Reconciler-level lemmas. -/

theorem len_zero (l : List String) (h : ¬ 0 < l.length) : l = [] :=
  List.eq_nil_of_length_eq_zero (Nat.eq_zero_of_not_pos h)

theorem classify_append_pos (pfx nm : String) (l : List String)
    (hpfx : hasPfx pfx nm = true) :
    0 < (classify pfx (l ++ [nm])).length := by
  rw [classify_append_one, if_pos hpfx]
  exact List.length_pos.mpr (sinsert_ne_nil nm _)

theorem reconcile_converged (e : Ctl) (sa : ServiceAccount) (st : Store)
    (h1 : 0 < (getGeneratedDockercfgSecretNames sa).1.length)
    (h2 : 0 < (getGeneratedDockercfgSecretNames sa).2.length) :
    createDockercfgSecretIfNeeded e sa st = (.ok (), sa, st) := by
  unfold createDockercfgSecretIfNeeded
  dsimp only
  rw [if_pos ⟨h2, h1⟩]

theorem reconcile_one_pull (e : Ctl) (sa : ServiceAccount) (st : Store)
    (hp : 0 < (getGeneratedDockercfgSecretNames sa).2.length)
    (hm : ¬ 0 < (getGeneratedDockercfgSecretNames sa).1.length) :
    createDockercfgSecretIfNeeded e sa st =
      ((if isConflictE (createDockerPullSecretReference sa
            ((getGeneratedDockercfgSecretNames sa).2.headD "") st).1 then .ok ()
        else (createDockerPullSecretReference sa
            ((getGeneratedDockercfgSecretNames sa).2.headD "") st).1),
       (createDockerPullSecretReference sa
            ((getGeneratedDockercfgSecretNames sa).2.headD "") st).2.1,
       (createDockerPullSecretReference sa
            ((getGeneratedDockercfgSecretNames sa).2.headD "") st).2.2) := by
  unfold createDockercfgSecretIfNeeded
  dsimp only
  rw [if_neg (fun hc => hm hc.2), if_pos (Or.inl hp), if_pos hp]

theorem reconcile_one_mnt (e : Ctl) (sa : ServiceAccount) (st : Store)
    (hm : 0 < (getGeneratedDockercfgSecretNames sa).1.length)
    (hp : ¬ 0 < (getGeneratedDockercfgSecretNames sa).2.length) :
    createDockercfgSecretIfNeeded e sa st =
      ((if isConflictE (createDockerPullSecretReference sa
            ((getGeneratedDockercfgSecretNames sa).1.headD "") st).1 then .ok ()
        else (createDockerPullSecretReference sa
            ((getGeneratedDockercfgSecretNames sa).1.headD "") st).1),
       (createDockerPullSecretReference sa
            ((getGeneratedDockercfgSecretNames sa).1.headD "") st).2.1,
       (createDockerPullSecretReference sa
            ((getGeneratedDockercfgSecretNames sa).1.headD "") st).2.2) := by
  unfold createDockercfgSecretIfNeeded
  dsimp only
  rw [if_neg (fun hc => hp hc.1), if_pos (Or.inr hm), if_neg hp]

theorem reconcile_snapOut (e : Ctl) (sa : ServiceAccount) (st : Store) :
    (createDockercfgSecretIfNeeded e sa st).2.1 = sa := by
  unfold createDockercfgSecretIfNeeded
  dsimp only
  split
  · rfl
  · split
    · exact linkRef_snapOut sa _ st
    · (repeat' split) <;> rfl

theorem headD_mem_of_pos (l : List String) (h : 0 < l.length) : l.headD "" ∈ l := by
  cases l with
  | nil => simp at h
  | cons x xs => simp

theorem reconcile_ok_converged (e : Ctl) (sa : ServiceAccount) (st : Store)
    (hq : accountsQuiet st)
    (hlive : findSA st sa.ns sa.name = some sa)
    (hok : (createDockercfgSecretIfNeeded e sa st).1 = .ok ()) :
    ∃ sa1, findSA (createDockercfgSecretIfNeeded e sa st).2.2 sa.ns sa.name = some sa1 ∧
      0 < (getGeneratedDockercfgSecretNames sa1).1.length ∧
      0 < (getGeneratedDockercfgSecretNames sa1).2.length := by
  by_cases hp : 0 < (getGeneratedDockercfgSecretNames sa).2.length <;>
    by_cases hm : 0 < (getGeneratedDockercfgSecretNames sa).1.length
  · rw [reconcile_converged e sa st hm hp]
    exact ⟨sa, hlive, hm, hp⟩
  · -- a generated bundle is referenced only in the image-pull list
    rw [reconcile_one_pull e sa st hp hm]
    have hmem : (getGeneratedDockercfgSecretNames sa).2.headD "" ∈
        (getGeneratedDockercfgSecretNames sa).2 := headD_mem_of_pos _ hp
    have hnotboth : ¬((getGeneratedDockercfgSecretNames sa).2.headD "" ∈
          (getGeneratedDockercfgSecretNames sa).1 ∧
        (getGeneratedDockercfgSecretNames sa).2.headD "" ∈
          (getGeneratedDockercfgSecretNames sa).2) := by
      rintro ⟨h1, _⟩
      rw [len_zero _ hm] at h1
      simp at h1
    obtain ⟨st2, heq, hfind2, _, _, _⟩ :=
      linkRef_self_update sa ((getGeneratedDockercfgSecretNames sa).2.headD "") st
        hq hlive hnotboth
    rw [heq]
    have hpfx : hasPfx (getDockercfgSecretNamePrefix sa)
        ((getGeneratedDockercfgSecretNames sa).2.headD "") = true :=
      ((mem_classify _ _ _).mp (getGen_snd sa ▸ hmem)).2
    refine ⟨_, hfind2, ?_, ?_⟩
    · rw [getGen_fst]
      have hsec : ({ linkUpd sa ((getGeneratedDockercfgSecretNames sa).2.headD "") with
          resourceVersion := sa.resourceVersion + 1 } : ServiceAccount).secrets =
          sa.secrets ++ [(getGeneratedDockercfgSecretNames sa).2.headD ""] := by
        show (linkUpd sa _).secrets = _
        unfold linkUpd
        dsimp only
        rw [if_neg (by rw [len_zero _ hm]; simp)]
      rw [hsec]
      exact classify_append_pos _ _ sa.secrets hpfx
    · rw [getGen_snd]
      have hipl : ({ linkUpd sa ((getGeneratedDockercfgSecretNames sa).2.headD "") with
          resourceVersion := sa.resourceVersion + 1 } : ServiceAccount).imagePullSecrets =
          sa.imagePullSecrets := by
        show (linkUpd sa _).imagePullSecrets = _
        unfold linkUpd
        dsimp only
        rw [if_pos hmem]
      rw [hipl]
      exact hp
  · -- a generated bundle is referenced only in the mountable list
    rw [reconcile_one_mnt e sa st hm hp]
    have hmem : (getGeneratedDockercfgSecretNames sa).1.headD "" ∈
        (getGeneratedDockercfgSecretNames sa).1 := headD_mem_of_pos _ hm
    have hnotboth : ¬((getGeneratedDockercfgSecretNames sa).1.headD "" ∈
          (getGeneratedDockercfgSecretNames sa).1 ∧
        (getGeneratedDockercfgSecretNames sa).1.headD "" ∈
          (getGeneratedDockercfgSecretNames sa).2) := by
      rintro ⟨_, h2⟩
      rw [len_zero _ hp] at h2
      simp at h2
    obtain ⟨st2, heq, hfind2, _, _, _⟩ :=
      linkRef_self_update sa ((getGeneratedDockercfgSecretNames sa).1.headD "") st
        hq hlive hnotboth
    rw [heq]
    have hpfx : hasPfx (getDockercfgSecretNamePrefix sa)
        ((getGeneratedDockercfgSecretNames sa).1.headD "") = true :=
      ((mem_classify _ _ _).mp (getGen_fst sa ▸ hmem)).2
    refine ⟨_, hfind2, ?_, ?_⟩
    · rw [getGen_fst]
      have hsec : ({ linkUpd sa ((getGeneratedDockercfgSecretNames sa).1.headD "") with
          resourceVersion := sa.resourceVersion + 1 } : ServiceAccount).secrets =
          sa.secrets := by
        show (linkUpd sa _).secrets = _
        unfold linkUpd
        dsimp only
        rw [if_pos hmem]
      rw [hsec]
      exact hm
    · rw [getGen_snd]
      have hipl : ({ linkUpd sa ((getGeneratedDockercfgSecretNames sa).1.headD "") with
          resourceVersion := sa.resourceVersion + 1 } : ServiceAccount).imagePullSecrets =
          sa.imagePullSecrets ++ [(getGeneratedDockercfgSecretNames sa).1.headD ""] := by
        show (linkUpd sa _).imagePullSecrets = _
        unfold linkUpd
        dsimp only
        rw [if_neg (by rw [len_zero _ hp]; simp)]
      rw [hipl]
      exact classify_append_pos _ _ sa.imagePullSecrets hpfx
  · -- both classification sets are empty: a fresh bundle is created and linked
    have hfind1 : findSA (tick st) sa.ns sa.name = some sa := by
      rw [findSA_tick st _ _ hq]; exact hlive
    unfold createDockercfgSecretIfNeeded at hok ⊢
    dsimp only at hok ⊢
    rw [if_neg (fun hc => hp hc.1)] at hok ⊢
    rw [if_neg (by rintro (h | h); exacts [hp h, hm h])] at hok ⊢
    rw [getSA_eq sa.ns sa.name st sa hfind1] at hok ⊢
    dsimp only at hok ⊢
    rw [if_neg (not_ne_iff.mpr rfl)] at hok ⊢
    rcases hcp : createDockerPullSecret e sa (tick st) with ⟨rb, st2⟩
    rw [hcp] at hok
    cases rb with
    | error err => simp at hok
    | ok b =>
      dsimp only at hok ⊢
      have hfr := createDockerPullSecret_frame e sa (tick st) (tick_quiet st hq)
      rw [hcp] at hfr
      dsimp only at hfr
      obtain ⟨hacc2, hq2, _⟩ := hfr
      have hacc2' : st2.accounts = st.accounts := by
        rw [hacc2, tick_accounts st hq]
      have hlive2 : findSA st2 sa.ns sa.name = some sa := by
        unfold findSA
        rw [hacc2']
        exact hlive
      have hpfx : hasPfx (getDockercfgSecretNamePrefix sa) b.name = true :=
        createDockerPullSecret_ok_name e sa (tick st) b (by rw [hcp])
      have hnotboth : ¬(b.name ∈ (getGeneratedDockercfgSecretNames sa).1 ∧
          b.name ∈ (getGeneratedDockercfgSecretNames sa).2) := by
        rintro ⟨h1, _⟩
        rw [len_zero _ hm] at h1
        simp at h1
      obtain ⟨st3, heq, hfind3, _, _, _⟩ :=
        linkRef_self_update sa b.name st2 hq2 hlive2 hnotboth
      rw [heq] at hok ⊢
      dsimp only at hok ⊢
      simp only [isConflictE] at hok ⊢
      refine ⟨_, hfind3, ?_, ?_⟩
      · rw [getGen_fst]
        have hsec : ({ linkUpd sa b.name with
            resourceVersion := sa.resourceVersion + 1 } : ServiceAccount).secrets =
            sa.secrets ++ [b.name] := by
          show (linkUpd sa _).secrets = _
          unfold linkUpd
          dsimp only
          rw [if_neg (by rw [len_zero _ hm]; simp)]
        rw [hsec]
        exact classify_append_pos _ _ sa.secrets hpfx
      · rw [getGen_snd]
        have hipl : ({ linkUpd sa b.name with
            resourceVersion := sa.resourceVersion + 1 } : ServiceAccount).imagePullSecrets =
            sa.imagePullSecrets ++ [b.name] := by
          show (linkUpd sa _).imagePullSecrets = _
          unfold linkUpd
          dsimp only
          rw [if_neg (by rw [len_zero _ hp]; simp)]
        rw [hipl]
        exact classify_append_pos _ _ sa.imagePullSecrets hpfx

/-! Token-materialization timeout. -/

/-- Event `ev` is an external write to the payload of secret ns/n. -/
def fillsTok (ev : ExtEvent) (ns n : String) : Bool :=
  match ev with
  | .fill ns' n' _ => ns' == ns && n' == n
  | _ => false

theorem tick_token_inv (st : Store) (ns n : String)
    (hnf : ∀ ev ∈ st.pending, fillsTok ev ns n = false)
    (cur : Secret) (hf : findSecret st ns n = some cur)
    (hd : lookupD cur.data serviceAccountTokenKey "" = "") :
    ∃ cur', findSecret (tick st) ns n = some cur' ∧
      lookupD cur'.data serviceAccountTokenKey "" = "" := by
  unfold tick
  cases hpend : st.pending with
  | nil => exact ⟨cur, hf, hd⟩
  | cons ev rest =>
    cases ev with
    | skip => exact ⟨cur, hf, hd⟩
    | updSA ns2 n2 s2 p2 => exact ⟨cur, hf, hd⟩
    | fill ns2 n2 v =>
      have hne : (ns2 == ns && n2 == n) = false := by
        have := hnf (.fill ns2 n2 v) (by rw [hpend]; exact List.mem_cons_self _ _)
        simpa [fillsTok] using this
      have hcf := findSecret_fields st ns n cur hf
      have hne' : ¬(ns2 = ns ∧ n2 = n) := by
        intro hcontra
        rw [hcontra.1, hcontra.2] at hne
        simp at hne
      have hccond : (cur.ns == ns2 && cur.name == n2) = false := by
        rw [hcf.1, hcf.2]
        by_cases h1 : ns = ns2
        · by_cases h2 : n = n2
          · exact absurd ⟨h1.symm, h2.symm⟩ hne'
          · simp [h2]
        · simp [h1]
      refine ⟨cur, ?_, hd⟩
      show findSecret (applyExt (.fill ns2 n2 v) { st with pending := rest }) ns n = some cur
      unfold applyExt findSecret
      dsimp only
      rw [List.find?_map]
      have hpf : ((fun s : Secret => s.ns == ns && s.name == n) ∘ (fun s : Secret =>
          if s.ns == ns2 && s.name == n2 then
            { s with data := upsert serviceAccountTokenKey v s.data }
          else s)) = fun s : Secret => s.ns == ns && s.name == n := by
        funext s
        dsimp only [Function.comp]
        split <;> rfl
      rw [hpf]
      have hf' : List.find? (fun s : Secret => s.ns == ns && s.name == n) st.secrets =
          some cur := hf
      rw [hf']
      simp only [Option.map_some']
      rw [if_neg (by rw [hccond]; simp)]

theorem pollToken_timeout (tok : Secret) :
    ∀ (fuel : Nat) (st : Store),
      (∀ ev ∈ st.pending, fillsTok ev tok.ns tok.name = false) →
      (∃ cur, findSecret st tok.ns tok.name = some cur ∧
        lookupD cur.data serviceAccountTokenKey "" = "") →
      (pollToken tok fuel st).1 = .error (tokenTimeoutErr tok.name) ∧
      findSecret (pollToken tok fuel st).2 tok.ns tok.name = none ∧
      (pollToken tok fuel st).2.reported = st.reported := by
  intro fuel
  induction fuel with
  | zero =>
    intro st hnf hinv
    obtain ⟨cur, hf, hd⟩ := hinv
    obtain ⟨cur', hf', hd'⟩ := tick_token_inv st tok.ns tok.name hnf cur hf hd
    have hdel : deleteSecret tok.ns tok.name st = (.ok (), { tick st with
        secrets := (tick st).secrets.filter fun s =>
          !(s.ns == tok.ns && s.name == tok.name) }) := by
      unfold deleteSecret
      rw [hf']
    have habs := deleteSecret_absent tok.ns tok.name st
    unfold pollToken
    rw [hdel]
    rw [hdel] at habs
    refine ⟨rfl, habs, ?_⟩
    exact tick_reported st
  | succ k ih =>
    intro st hnf hinv
    obtain ⟨cur, hf, hd⟩ := hinv
    obtain ⟨cur', hf', hd'⟩ := tick_token_inv st tok.ns tok.name hnf cur hf hd
    have hget : getSecret tok.ns tok.name st = (.ok cur', tick st) := by
      unfold getSecret
      rw [hf']
    unfold pollToken
    rw [hget]
    dsimp only
    rw [if_neg (by rw [hd']; simp)]
    have hnf' : ∀ ev ∈ (tick st).pending, fillsTok ev tok.ns tok.name = false := by
      intro ev hev
      rw [tick_pending] at hev
      exact hnf ev (List.tail_subset _ hev)
    obtain ⟨i1, i2, i3⟩ := ih (tick st) hnf' ⟨cur', hf', hd'⟩
    exact ⟨i1, i2, by rw [i3, tick_reported]⟩

/-! Claim theorems. -/

/-- C1: calling the reconciliation entry point createDockercfgSecretIfNeeded twice
in immediate succession on the same stored principal state is idempotent.  When
the first call runs on the live stored principal (no concurrent principal writer
pending) and returns success, the second call — invoked on the principal as then
stored — returns success and leaves the store completely unchanged: no second
bundle is created and no duplicate entry is appended to either list. -/
theorem c1_reconcile_idempotent (e : Ctl) (sa sa1 : ServiceAccount) (st : Store)
    (hq : accountsQuiet st)
    (hlive : findSA st sa.ns sa.name = some sa)
    (hok : (createDockercfgSecretIfNeeded e sa st).1 = .ok ())
    (h2 : findSA (createDockercfgSecretIfNeeded e sa st).2.2 sa.ns sa.name = some sa1) :
    createDockercfgSecretIfNeeded e sa1 (createDockercfgSecretIfNeeded e sa st).2.2 =
      (.ok (), sa1, (createDockercfgSecretIfNeeded e sa st).2.2) := by
  obtain ⟨sa1', hfind, hm, hp⟩ := reconcile_ok_converged e sa st hq hlive hok
  rw [hfind] at h2
  injection h2 with h2
  subst h2
  exact reconcile_converged e _ _ hm hp

/-- C3: whenever the generated-bundle classification of the freshly fetched
principal differs from that of the caller's stale snapshot, the reference linker
returns the stale-data Conflict error (carrying both classifications), performs
no store write — the resulting store is exactly the post-read store — and the
stored principal is exactly the object the concurrent writer left. -/
theorem c3_stale_decision_conflict (sa : ServiceAccount) (nm : String) (st : Store)
    (live : ServiceAccount)
    (hfind : findSA (tick st) sa.ns sa.name = some live)
    (hne : getGeneratedDockercfgSecretNames sa ≠ getGeneratedDockercfgSecretNames live) :
    isConflictE (createDockerPullSecretReference sa nm st).1 = true ∧
    (createDockerPullSecretReference sa nm st).1 =
      .error (.conflict "serviceaccount" sa.name
        (staleDataMsg nm (getGeneratedDockercfgSecretNames sa).1
          (getGeneratedDockercfgSecretNames sa).2
          (getGeneratedDockercfgSecretNames live).1
          (getGeneratedDockercfgSecretNames live).2)) ∧
    (createDockerPullSecretReference sa nm st).2.2 = tick st ∧
    findSA (createDockerPullSecretReference sa nm st).2.2 sa.ns sa.name = some live := by
  have heq := linkRef_disagree sa nm st live hfind hne
  rw [heq]
  exact ⟨rfl, rfl, rfl, hfind⟩

/-- C4: when both classification sets are empty, createDockercfgSecretIfNeeded
re-reads the principal, and if the re-read's version token differs from the
snapshot's it returns success having performed nothing beyond that single read:
the resulting store is exactly the post-read store, with the stored secrets
(hence neither a token nor a bundle was created) and the error sink untouched. -/
theorem c4_both_empty_stale_noop (e : Ctl) (sa : ServiceAccount) (st : Store)
    (live : ServiceAccount)
    (hm : (getGeneratedDockercfgSecretNames sa).1 = [])
    (hp : (getGeneratedDockercfgSecretNames sa).2 = [])
    (hfind : findSA (tick st) sa.ns sa.name = some live)
    (hrv : live.resourceVersion ≠ sa.resourceVersion) :
    createDockercfgSecretIfNeeded e sa st = (.ok (), sa, tick st) ∧
    secretKeys (tick st) = secretKeys st ∧
    (tick st).reported = st.reported := by
  refine ⟨?_, tick_secretKeys st, tick_reported st⟩
  unfold createDockercfgSecretIfNeeded
  dsimp only
  rw [if_neg (by rw [hp]; simp), if_neg (by rw [hm, hp]; simp)]
  rw [getSA_eq sa.ns sa.name st live hfind]
  dsimp only
  rw [if_pos hrv]

/-- C9: the sleep between unsuccessful poll attempts is
wait.Jitter(tokenSecretWaitInterval, 0.0); the jitter factor actually applied is
positive (the non-positive argument 0.0 selects the default factor 1), so for
every positive random draw the delay strictly exceeds the fixed interval and the
inter-attempt delay is not one fixed constant across runs. -/
theorem c9_poll_sleep_jittered :
    0 < effectiveMaxFactor 0 ∧
    (∀ r : ℚ, 0 < r → tokenSecretWaitInterval < pollSleep r) ∧
    pollSleep 0 ≠ pollSleep (1 / 2) := by
  refine ⟨by norm_num [effectiveMaxFactor], ?_, ?_⟩
  · intro r hr
    simp only [pollSleep, waitJitter, effectiveMaxFactor, tokenSecretWaitInterval]
    norm_num
    linarith
  · simp only [pollSleep, waitJitter, effectiveMaxFactor, tokenSecretWaitInterval]
    norm_num

/-- C10: neither createDockercfgSecretIfNeeded nor
createDockerPullSecretReference ever mutates the caller's ServiceAccount
snapshot: the snapshot value handed back by every invocation (the middle
component, tracking the object the caller's pointer refers to — list appends are
applied only to the freshly fetched live object) equals the snapshot passed in. -/
theorem c10_snapshot_never_mutated (e : Ctl) (sa : ServiceAccount) (nm : String)
    (st : Store) :
    (createDockerPullSecretReference sa nm st).2.1 = sa ∧
    (createDockercfgSecretIfNeeded e sa st).2.1 = sa :=
  ⟨linkRef_snapOut sa nm st, reconcile_snapOut e sa st⟩

theorem headD_min_of_sorted (l : List String)
    (hs : l.Sorted (fun a b => strLt a b = true)) :
    ∀ x ∈ l, l.headD "" = x ∨ strLt (l.headD "") x = true := by
  cases l with
  | nil => intro x hx; cases hx
  | cons y ys =>
    intro x hx
    rcases List.mem_cons.mp hx with rfl | hx
    · exact Or.inl rfl
    · exact Or.inr ((List.sorted_cons.mp hs).1 x hx)

/-- C2: on a snapshot whose classification yields exactly one non-empty set,
createDockercfgSecretIfNeeded picks the lexicographically-first name of the
non-empty set and hands exactly that name to the reference linker, mapping a
Conflict result of the link to success and returning any other link result
unchanged; it creates no secret (no bundle, no token), and whenever the link
succeeds the stored principal ends up referencing that name in both lists. -/
theorem c2_exactly_one_links_first (e : Ctl) (sa : ServiceAccount) (st : Store)
    (hone : (0 < (getGeneratedDockercfgSecretNames sa).2.length ∧
        (getGeneratedDockercfgSecretNames sa).1 = []) ∨
      (0 < (getGeneratedDockercfgSecretNames sa).1.length ∧
        (getGeneratedDockercfgSecretNames sa).2 = [])) :
    ∃ nm,
      (nm ∈ (getGeneratedDockercfgSecretNames sa).1 ∨
        nm ∈ (getGeneratedDockercfgSecretNames sa).2) ∧
      (∀ x ∈ (getGeneratedDockercfgSecretNames sa).1, nm = x ∨ strLt nm x = true) ∧
      (∀ x ∈ (getGeneratedDockercfgSecretNames sa).2, nm = x ∨ strLt nm x = true) ∧
      createDockercfgSecretIfNeeded e sa st =
        ((if isConflictE (createDockerPullSecretReference sa nm st).1 then .ok ()
          else (createDockerPullSecretReference sa nm st).1),
         (createDockerPullSecretReference sa nm st).2.1,
         (createDockerPullSecretReference sa nm st).2.2) ∧
      secretKeys (createDockercfgSecretIfNeeded e sa st).2.2 = secretKeys st ∧
      ((createDockerPullSecretReference sa nm st).1 = .ok () →
        ∃ p, findSA (createDockercfgSecretIfNeeded e sa st).2.2 sa.ns sa.name = some p ∧
          nm ∈ p.secrets ∧ nm ∈ p.imagePullSecrets) := by
  rcases hone with ⟨hp, hm0⟩ | ⟨hm, hp0⟩
  · have heq := reconcile_one_pull e sa st hp (by rw [hm0]; simp)
    refine ⟨(getGeneratedDockercfgSecretNames sa).2.headD "",
      Or.inr (headD_mem_of_pos _ hp), ?_, ?_, heq, ?_, ?_⟩
    · intro x hx
      rw [hm0] at hx
      cases hx
    · exact headD_min_of_sorted _ (getGen_snd sa ▸ sorted_classify _ _)
    · rw [heq]
      exact (linkRef_frame sa _ st).1
    · intro hlok
      rw [heq]
      exact linkRef_ok_linked sa _ st hlok
  · have heq := reconcile_one_mnt e sa st hm (by rw [hp0]; simp)
    refine ⟨(getGeneratedDockercfgSecretNames sa).1.headD "",
      Or.inl (headD_mem_of_pos _ hm), ?_, ?_, heq, ?_, ?_⟩
    · exact headD_min_of_sorted _ (getGen_fst sa ▸ sorted_classify _ _)
    · intro x hx
      rw [hp0] at hx
      cases hx
    · rw [heq]
      exact (linkRef_frame sa _ st).1
    · intro hlok
      rw [heq]
      exact linkRef_ok_linked sa _ st hlok

/-- C6: if no external write ever fills the token's payload, createTokenSecret
exhausts its bounded poll, deletes the token object (the token no longer exists
afterward; a NotFound delete response would be tolerated, and nothing reaches the
error sink) and fails with the timeout error naming the token:
fmt.Errorf("token never generated for %s", token name). -/
theorem c6_token_timeout_cleanup (sa : ServiceAccount) (st : Store)
    (hnf : ∀ ev ∈ st.pending,
      fillsTok ev sa.ns (getTokenSecretNamePrefix sa ++ genSuffix st) = false)
    (hfresh : findSecret st sa.ns (getTokenSecretNamePrefix sa ++ genSuffix st) = none) :
    (createTokenSecret sa st).1 =
      .error (tokenTimeoutErr (getTokenSecretNamePrefix sa ++ genSuffix st)) ∧
    findSecret (createTokenSecret sa st).2 sa.ns
      (getTokenSecretNamePrefix sa ++ genSuffix st) = none ∧
    (createTokenSecret sa st).2.reported = st.reported := by
  unfold createTokenSecret genName
  dsimp only
  have hfresh1 : findSecret (tick { st with nameSeq := st.nameSeq.tail }) sa.ns
      (mkTokenSecret sa (genSuffix st)).name = none := by
    apply findSecret_none_of_keys { st with nameSeq := st.nameSeq.tail } _ _ _
      (tick_secretKeys _)
    exact hfresh
  have hcreate := createSecret_eq (mkTokenSecret sa (genSuffix st))
    { st with nameSeq := st.nameSeq.tail } hfresh1
  rw [hcreate]
  dsimp only
  have hnf2 : ∀ ev ∈ ({ tick { st with nameSeq := st.nameSeq.tail } with
      secrets := mkTokenSecret sa (genSuffix st) ::
        (tick { st with nameSeq := st.nameSeq.tail }).secrets } : Store).pending,
      fillsTok ev (mkTokenSecret sa (genSuffix st)).ns
        (mkTokenSecret sa (genSuffix st)).name = false := by
    intro ev hev
    have : ev ∈ st.pending := by
      have hp : ({ tick { st with nameSeq := st.nameSeq.tail } with
          secrets := mkTokenSecret sa (genSuffix st) ::
            (tick { st with nameSeq := st.nameSeq.tail }).secrets } : Store).pending =
          st.pending.tail := tick_pending _
      rw [hp] at hev
      exact List.tail_subset _ hev
    exact hnf ev this
  have hinv : ∃ cur, findSecret ({ tick { st with nameSeq := st.nameSeq.tail } with
      secrets := mkTokenSecret sa (genSuffix st) ::
        (tick { st with nameSeq := st.nameSeq.tail }).secrets } : Store)
      (mkTokenSecret sa (genSuffix st)).ns (mkTokenSecret sa (genSuffix st)).name =
      some cur ∧ lookupD cur.data serviceAccountTokenKey "" = "" := by
    refine ⟨mkTokenSecret sa (genSuffix st), ?_, rfl⟩
    unfold findSecret
    dsimp only
    rw [List.find?]
    simp
  obtain ⟨p1, p2, p3⟩ := pollToken_timeout (mkTokenSecret sa (genSuffix st))
    (tokenSecretWaitTimes + 1) _ hnf2 hinv
  refine ⟨p1, p2, ?_⟩
  rw [p3]
  exact tick_reported _

/-- C7: when the stale and live classifications agree and the bundle name carries
the generated-name prefix, the reference linker appends the name to exactly those
of the two live lists that do not already contain it; when both already contain
it the call is a success with no store write (the store stays the post-read
store), and otherwise (absent concurrent principal writers) the updated principal
is written back with a fresh version token and no secret is created. -/
theorem c7_link_appends_missing (sa : ServiceAccount) (nm : String) (st : Store)
    (live : ServiceAccount)
    (hfind : findSA (tick st) sa.ns sa.name = some live)
    (hcls : getGeneratedDockercfgSecretNames sa = getGeneratedDockercfgSecretNames live)
    (hpfx : hasPfx (getDockercfgSecretNamePrefix live) nm = true) :
    (nm ∈ live.secrets ∧ nm ∈ live.imagePullSecrets →
      createDockerPullSecretReference sa nm st = (.ok (), sa, tick st)) ∧
    (¬(nm ∈ live.secrets ∧ nm ∈ live.imagePullSecrets) → accountsQuiet (tick st) →
      ∃ st2, createDockerPullSecretReference sa nm st = (.ok (), sa, st2) ∧
        findSA st2 sa.ns sa.name = some
          { live with
              secrets := if nm ∈ live.secrets then live.secrets
                else live.secrets ++ [nm],
              imagePullSecrets := if nm ∈ live.imagePullSecrets then live.imagePullSecrets
                else live.imagePullSecrets ++ [nm],
              resourceVersion := live.resourceVersion + 1 } ∧
        secretKeys st2 = secretKeys st) := by
  have hiff1 : nm ∈ (getGeneratedDockercfgSecretNames live).1 ↔ nm ∈ live.secrets := by
    rw [getGen_fst, mem_classify]
    exact ⟨fun h => h.1, fun h => ⟨h, hpfx⟩⟩
  have hiff2 : nm ∈ (getGeneratedDockercfgSecretNames live).2 ↔
      nm ∈ live.imagePullSecrets := by
    rw [getGen_snd, mem_classify]
    exact ⟨fun h => h.1, fun h => ⟨h, hpfx⟩⟩
  have hfl := findSA_fields _ _ _ _ hfind
  constructor
  · intro ⟨h1, h2⟩
    exact (linkRef_agree sa nm st live hfind hcls).1 ⟨hiff1.mpr h1, hiff2.mpr h2⟩
  · intro hnb hq1
    have hnb' : ¬(nm ∈ (getGeneratedDockercfgSecretNames live).1 ∧
        nm ∈ (getGeneratedDockercfgSecretNames live).2) :=
      fun hc => hnb ⟨hiff1.mp hc.1, hiff2.mp hc.2⟩
    have heq := (linkRef_agree sa nm st live hfind hcls).2 hnb'
    have hfind2 : findSA (tick (tick st)) sa.ns sa.name = some live := by
      rw [findSA_tick _ _ _ hq1]
      exact hfind
    have hfind2' : findSA (tick (tick st)) (linkUpd live nm).ns
        (linkUpd live nm).name = some live := by
      rw [show (linkUpd live nm).ns = sa.ns from hfl.1,
        show (linkUpd live nm).name = sa.name from hfl.2]
      exact hfind2
    have hupd := updateSA_ok (linkUpd live nm) (tick st) live hfind2' rfl
    rw [hupd] at heq
    have hrec : ({ linkUpd live nm with
        resourceVersion := (linkUpd live nm).resourceVersion + 1 } : ServiceAccount) =
        { live with
            secrets := if nm ∈ live.secrets then live.secrets
              else live.secrets ++ [nm],
            imagePullSecrets := if nm ∈ live.imagePullSecrets then live.imagePullSecrets
              else live.imagePullSecrets ++ [nm],
            resourceVersion := live.resourceVersion + 1 } := by
      unfold linkUpd
      simp only [hiff1, hiff2]
    refine ⟨_, heq, ?_, ?_⟩
    · have happ := findSA_replace_general (tick (tick st)).accounts sa.ns sa.name
        (linkUpd live nm)
        { linkUpd live nm with resourceVersion := (linkUpd live nm).resourceVersion + 1 }
        hfl.1 hfl.2 hfl.1 hfl.2 live hfind2
      rw [← hrec]
      exact happ
    · have hsnd := congrArg Prod.snd hupd
      dsimp only at hsnd
      show secretKeys _ = secretKeys st
      rw [← hsnd, (updateSA_frame _ _).1, tick_secretKeys, tick_secretKeys]

/-- C8: every bundle persisted by createDockerPullSecret carries as payload the
JSON serialization of the single-entry map from the configured registry endpoint
to the entry with username "serviceaccount", the materialized token's secret as
password, and email "serviceaccount@example.org"; its annotations record the
principal's name, the principal's identity marker, and the token object's name;
and the bundle is stored. -/
theorem c8_bundle_wire_format (e : Ctl) (sa : ServiceAccount) (st : Store) (b : Secret)
    (hok : (createDockerPullSecret e sa st).1 = .ok b) :
    ∃ tok st₁, createTokenSecret sa st = (.ok tok, st₁) ∧
      lookupD b.annotations serviceAccountNameKey "" = sa.name ∧
      lookupD b.annotations serviceAccountUIDKey "" = sa.uid ∧
      lookupD b.annotations serviceAccountTokenSecretNameKey "" = tok.name ∧
      lookupD b.data dockerConfigKey "" =
        dockercfgJSON e.dockerURL "serviceaccount"
          (lookupD tok.data serviceAccountTokenKey "") "serviceaccount@example.org" ∧
      findSecret (createDockerPullSecret e sa st).2 b.ns b.name = some b := by
  unfold createDockerPullSecret at hok ⊢
  rcases hct : createTokenSecret sa st with ⟨rt, st₁⟩
  rw [hct] at hok
  cases rt with
  | error err => simp at hok
  | ok tok =>
    dsimp only at hok ⊢
    unfold genName at hok ⊢
    dsimp only at hok ⊢
    rcases hc : createSecret (mkDockercfgSecret e sa tok (genSuffix st₁))
        { st₁ with nameSeq := st₁.nameSeq.tail } with ⟨rc, st₃⟩
    rw [hc] at hok
    cases rc with
    | error err => simp at hok
    | ok created =>
      dsimp only at hok
      simp only [Except.ok.injEq] at hok
      obtain ⟨hcr, hst₃⟩ := createSecret_ok_inv _ _ _ _ hc
      subst hok
      subst hcr
      refine ⟨tok, st₁, rfl, ?_, ?_, ?_, ?_, ?_⟩
      · simp [mkDockercfgSecret, lookupD, List.find?, serviceAccountNameKey]
      · simp [mkDockercfgSecret, lookupD, List.find?, serviceAccountNameKey,
          serviceAccountUIDKey]
      · simp [mkDockercfgSecret, lookupD, List.find?, serviceAccountNameKey,
          serviceAccountUIDKey, serviceAccountTokenSecretNameKey]
      · simp [mkDockercfgSecret, lookupD, List.find?, upsert, dockerConfigKey]
      · rw [hst₃]
        unfold findSecret
        dsimp only
        rw [List.find?]
        simp

/-- C5: on the both-empty path, if bundle creation succeeds but the subsequent
link attempt returns a Conflict, createDockercfgSecretIfNeeded deletes the
just-created bundle and returns success: the bundle no longer exists in the
resulting store, nothing is reported to the error sink by the delete (a NotFound
delete response is tolerated, not escalated), and the overall result is nil. -/
theorem c5_orphan_bundle_cleanup (e : Ctl) (sa : ServiceAccount) (st : Store)
    (live : ServiceAccount) (b : Secret)
    (hm : (getGeneratedDockercfgSecretNames sa).1 = [])
    (hp : (getGeneratedDockercfgSecretNames sa).2 = [])
    (hfind : findSA (tick st) sa.ns sa.name = some live)
    (hrv : live.resourceVersion = sa.resourceVersion)
    (hb : (createDockerPullSecret e sa (tick st)).1 = .ok b)
    (hconf : isConflictE (createDockerPullSecretReference sa b.name
        (createDockerPullSecret e sa (tick st)).2).1 = true) :
    createDockercfgSecretIfNeeded e sa st =
      (.ok (), sa,
        (deleteSecret b.ns b.name
          (createDockerPullSecretReference sa b.name
            (createDockerPullSecret e sa (tick st)).2).2.2).2) ∧
    findSecret (deleteSecret b.ns b.name
        (createDockerPullSecretReference sa b.name
          (createDockerPullSecret e sa (tick st)).2).2.2).2 b.ns b.name = none ∧
    (deleteSecret b.ns b.name
        (createDockerPullSecretReference sa b.name
          (createDockerPullSecret e sa (tick st)).2).2.2).2.reported =
      (createDockerPullSecretReference sa b.name
        (createDockerPullSecret e sa (tick st)).2).2.2.reported := by
  refine ⟨?_, deleteSecret_absent _ _ _, ?_⟩
  · unfold createDockercfgSecretIfNeeded
    dsimp only
    rw [if_neg (by rw [hp]; simp), if_neg (by rw [hm, hp]; simp)]
    rw [getSA_eq sa.ns sa.name st live hfind]
    dsimp only
    rw [if_neg (not_ne_iff.mpr hrv)]
    rcases hcp : createDockerPullSecret e sa (tick st) with ⟨rb, st2⟩
    rw [hcp] at hb hconf
    cases rb with
    | error err => simp at hb
    | ok b' =>
      dsimp only at hb hconf ⊢
      simp only [Except.ok.injEq] at hb
      rw [hb]
      rw [if_pos hconf]
      rcases hd : deleteSecret b.ns b.name
          (createDockerPullSecretReference sa b.name st2).2.2 with ⟨rd, st4⟩
      cases rd with
      | ok u => rfl
      | error de =>
        have hde : de = Err.notFound "secret" b.name :=
          deleteSecret_err _ _ _ de (by rw [hd])
        subst hde
        simp [Err.isNotFound]
  · have := (deleteSecret_store_frame b.ns b.name
      (createDockerPullSecretReference sa b.name
        (createDockerPullSecret e sa (tick st)).2).2.2).2.2
    rw [this, tick_reported]

/-! Concrete data for the witnesses. -/

/-- A sample controller configuration. -/
def ctlW : Ctl := ⟨"registry.example.com"⟩

def saC1 : ServiceAccount :=
  { ns := "ns", name := "default", uid := "u1", resourceVersion := 5,
    secrets := ["default-dockercfg-aaaaa"],
    imagePullSecrets := ["default-dockercfg-aaaaa"] }

def stC1 : Store :=
  { accounts := [saC1], secrets := [], pending := [], nameSeq := [], reported := [] }

def saC2 : ServiceAccount :=
  { ns := "ns", name := "default", uid := "u1", resourceVersion := 5,
    secrets := [],
    imagePullSecrets := ["default-dockercfg-b", "default-dockercfg-a", "other"] }

def stC2 : Store :=
  { accounts := [saC2], secrets := [], pending := [], nameSeq := [], reported := [] }

def saC3 : ServiceAccount :=
  { ns := "ns", name := "default", uid := "u1", resourceVersion := 3,
    secrets := [], imagePullSecrets := [] }

def liveC3 : ServiceAccount :=
  { ns := "ns", name := "default", uid := "u1", resourceVersion := 7,
    secrets := ["default-dockercfg-zzzzz"],
    imagePullSecrets := ["default-dockercfg-zzzzz"] }

def stC3 : Store :=
  { accounts := [liveC3], secrets := [], pending := [], nameSeq := [], reported := [] }

def saC4 : ServiceAccount :=
  { ns := "ns", name := "default", uid := "u1", resourceVersion := 1,
    secrets := [], imagePullSecrets := [] }

def liveC4 : ServiceAccount :=
  { ns := "ns", name := "default", uid := "u1", resourceVersion := 2,
    secrets := [], imagePullSecrets := [] }

def stC4 : Store :=
  { accounts := [liveC4], secrets := [], pending := [], nameSeq := [], reported := [] }

def saC5 : ServiceAccount :=
  { ns := "ns", name := "default", uid := "u1", resourceVersion := 5,
    secrets := [], imagePullSecrets := [] }

/-- Interference schedule for the C5 scenario: the outer re-read and the token
creation see idle steps, the first poll sees the materializer fill the token,
the bundle creation sees an idle step, and the linker's fresh read sees a
concurrent writer replace the principal's lists. -/
def stC5 : Store :=
  { accounts := [saC5], secrets := [],
    pending := [.skip, .skip, .fill "ns" "default-token-abcde" "tok1", .skip,
      .updSA "ns" "default" ["default-dockercfg-zzzzz"] ["default-dockercfg-zzzzz"]],
    nameSeq := ["abcde", "bcdef"], reported := [] }

/-- The filled token as fetched by the poll in the C5 scenario. -/
def tokC5 : Secret :=
  { ns := "ns", name := "default-token-abcde",
    annotations := [(serviceAccountNameKey, "default"), (serviceAccountUIDKey, "u1")],
    secretType := secretTypeServiceAccountToken,
    data := [(serviceAccountTokenKey, "tok1")] }

/-- The bundle created in the C5 scenario. -/
def bC5 : Secret := mkDockercfgSecret ctlW saC5 tokC5 "bcdef"

def saC6 : ServiceAccount :=
  { ns := "ns", name := "default", uid := "u6", resourceVersion := 1,
    secrets := [], imagePullSecrets := [] }

def stC6 : Store :=
  { accounts := [saC6], secrets := [], pending := [], nameSeq := ["abcde"],
    reported := [] }

def liveC7 : ServiceAccount :=
  { ns := "ns", name := "default", uid := "u1", resourceVersion := 4,
    secrets := [], imagePullSecrets := ["default-dockercfg-aaaaa"] }

def stC7 : Store :=
  { accounts := [liveC7], secrets := [], pending := [], nameSeq := [], reported := [] }

def saC8 : ServiceAccount :=
  { ns := "ns", name := "default", uid := "u8", resourceVersion := 2,
    secrets := [], imagePullSecrets := [] }

def stC8 : Store :=
  { accounts := [saC8], secrets := [],
    pending := [.skip, .fill "ns" "default-token-abcde" "tok8"],
    nameSeq := ["abcde", "bcdef"], reported := [] }

def tokC8 : Secret :=
  { ns := "ns", name := "default-token-abcde",
    annotations := [(serviceAccountNameKey, "default"), (serviceAccountUIDKey, "u8")],
    secretType := secretTypeServiceAccountToken,
    data := [(serviceAccountTokenKey, "tok8")] }

def bC8 : Secret := mkDockercfgSecret ctlW saC8 tokC8 "bcdef"

/-! Witnesses. -/

/-- Witness for C1 at a concrete converged store. -/
theorem c1_reconcile_idempotent_witness :
    createDockercfgSecretIfNeeded ctlW saC1
        (createDockercfgSecretIfNeeded ctlW saC1 stC1).2.2 =
      (.ok (), saC1, (createDockercfgSecretIfNeeded ctlW saC1 stC1).2.2) := by
  apply c1_reconcile_idempotent ctlW saC1 saC1 stC1
  · intro ev hev
    simp [stC1] at hev
  · rfl
  · rfl
  · rfl

/-- Witness for C2 at a principal whose generated bundles appear only in the
image-pull list. -/
theorem c2_exactly_one_links_first_witness :
    ∃ nm,
      (nm ∈ (getGeneratedDockercfgSecretNames saC2).1 ∨
        nm ∈ (getGeneratedDockercfgSecretNames saC2).2) ∧
      (∀ x ∈ (getGeneratedDockercfgSecretNames saC2).1, nm = x ∨ strLt nm x = true) ∧
      (∀ x ∈ (getGeneratedDockercfgSecretNames saC2).2, nm = x ∨ strLt nm x = true) ∧
      createDockercfgSecretIfNeeded ctlW saC2 stC2 =
        ((if isConflictE (createDockerPullSecretReference saC2 nm stC2).1 then .ok ()
          else (createDockerPullSecretReference saC2 nm stC2).1),
         (createDockerPullSecretReference saC2 nm stC2).2.1,
         (createDockerPullSecretReference saC2 nm stC2).2.2) ∧
      secretKeys (createDockercfgSecretIfNeeded ctlW saC2 stC2).2.2 = secretKeys stC2 ∧
      ((createDockerPullSecretReference saC2 nm stC2).1 = .ok () →
        ∃ p, findSA (createDockercfgSecretIfNeeded ctlW saC2 stC2).2.2 saC2.ns
            saC2.name = some p ∧
          nm ∈ p.secrets ∧ nm ∈ p.imagePullSecrets) :=
  c2_exactly_one_links_first ctlW saC2 stC2 (Or.inl ⟨by decide, by decide⟩)

/-- Witness for C3: a stale empty snapshot against a live principal that a
concurrent writer already converged. -/
theorem c3_stale_decision_conflict_witness :
    isConflictE (createDockerPullSecretReference saC3 "default-dockercfg-aaaaa" stC3).1
        = true ∧
    (createDockerPullSecretReference saC3 "default-dockercfg-aaaaa" stC3).1 =
      .error (.conflict "serviceaccount" saC3.name
        (staleDataMsg "default-dockercfg-aaaaa" (getGeneratedDockercfgSecretNames saC3).1
          (getGeneratedDockercfgSecretNames saC3).2
          (getGeneratedDockercfgSecretNames liveC3).1
          (getGeneratedDockercfgSecretNames liveC3).2)) ∧
    (createDockerPullSecretReference saC3 "default-dockercfg-aaaaa" stC3).2.2 =
      tick stC3 ∧
    findSA (createDockerPullSecretReference saC3 "default-dockercfg-aaaaa" stC3).2.2
      saC3.ns saC3.name = some liveC3 :=
  c3_stale_decision_conflict saC3 "default-dockercfg-aaaaa" stC3 liveC3 (by rfl)
    (by decide)

/-- Witness for C4: a stale both-empty snapshot whose re-read returns a newer
version. -/
theorem c4_both_empty_stale_noop_witness :
    createDockercfgSecretIfNeeded ctlW saC4 stC4 = (.ok (), saC4, tick stC4) ∧
    secretKeys (tick stC4) = secretKeys stC4 ∧
    (tick stC4).reported = stC4.reported :=
  c4_both_empty_stale_noop ctlW saC4 stC4 liveC4 rfl rfl rfl (by decide)

/-- Witness for C5: the full scenario in which a concurrent writer updates the
principal between bundle creation and the link attempt. -/
theorem c5_orphan_bundle_cleanup_witness :
    createDockercfgSecretIfNeeded ctlW saC5 stC5 =
      (.ok (), saC5,
        (deleteSecret bC5.ns bC5.name
          (createDockerPullSecretReference saC5 bC5.name
            (createDockerPullSecret ctlW saC5 (tick stC5)).2).2.2).2) ∧
    findSecret (deleteSecret bC5.ns bC5.name
        (createDockerPullSecretReference saC5 bC5.name
          (createDockerPullSecret ctlW saC5 (tick stC5)).2).2.2).2 bC5.ns bC5.name =
      none ∧
    (deleteSecret bC5.ns bC5.name
        (createDockerPullSecretReference saC5 bC5.name
          (createDockerPullSecret ctlW saC5 (tick stC5)).2).2.2).2.reported =
      (createDockerPullSecretReference saC5 bC5.name
        (createDockerPullSecret ctlW saC5 (tick stC5)).2).2.2.reported :=
  c5_orphan_bundle_cleanup ctlW saC5 stC5 saC5 bC5 rfl rfl rfl rfl (by rfl) (by rfl)

/-- Witness for C6: no pending fill, so the poll bound is exhausted. -/
theorem c6_token_timeout_cleanup_witness :
    (createTokenSecret saC6 stC6).1 =
      .error (tokenTimeoutErr (getTokenSecretNamePrefix saC6 ++ genSuffix stC6)) ∧
    findSecret (createTokenSecret saC6 stC6).2 saC6.ns
      (getTokenSecretNamePrefix saC6 ++ genSuffix stC6) = none ∧
    (createTokenSecret saC6 stC6).2.reported = stC6.reported := by
  apply c6_token_timeout_cleanup saC6 stC6
  · intro ev hev
    simp [stC6] at hev
  · rfl

/-- Witness for C7: linking a bundle present only in the live image-pull list
appends it to the mountable list and writes back with a fresh version. -/
theorem c7_link_appends_missing_witness :
    ∃ st2, createDockerPullSecretReference liveC7 "default-dockercfg-aaaaa" stC7 =
        (.ok (), liveC7, st2) ∧
      findSA st2 liveC7.ns liveC7.name = some
        { liveC7 with
            secrets := if "default-dockercfg-aaaaa" ∈ liveC7.secrets then liveC7.secrets
              else liveC7.secrets ++ ["default-dockercfg-aaaaa"],
            imagePullSecrets := if "default-dockercfg-aaaaa" ∈ liveC7.imagePullSecrets
              then liveC7.imagePullSecrets
              else liveC7.imagePullSecrets ++ ["default-dockercfg-aaaaa"],
            resourceVersion := liveC7.resourceVersion + 1 } ∧
      secretKeys st2 = secretKeys stC7 := by
  apply (c7_link_appends_missing liveC7 "default-dockercfg-aaaaa" stC7 liveC7 rfl rfl
    (by decide)).2
  · decide
  · intro ev hev
    simp [tick, stC7] at hev

/-- Witness for C8 on a successful end-to-end bundle creation. -/
theorem c8_bundle_wire_format_witness :
    ∃ tok st₁, createTokenSecret saC8 stC8 = (.ok tok, st₁) ∧
      lookupD bC8.annotations serviceAccountNameKey "" = saC8.name ∧
      lookupD bC8.annotations serviceAccountUIDKey "" = saC8.uid ∧
      lookupD bC8.annotations serviceAccountTokenSecretNameKey "" = tok.name ∧
      lookupD bC8.data dockerConfigKey "" =
        dockercfgJSON ctlW.dockerURL "serviceaccount"
          (lookupD tok.data serviceAccountTokenKey "") "serviceaccount@example.org" ∧
      findSecret (createDockerPullSecret ctlW saC8 stC8).2 bC8.ns bC8.name = some bC8 :=
  c8_bundle_wire_format ctlW saC8 stC8 bC8 (by rfl)

/-- Witness for C9 at the random draw one half. -/
theorem c9_poll_sleep_jittered_witness :
    tokenSecretWaitInterval < pollSleep (1 / 2) :=
  c9_poll_sleep_jittered.2.1 (1 / 2) (by norm_num)

end CreateDockercfgSecrets
